import Mathlib

/-!
Verification of the `prepforinsta` image processor
(`src/prepforinsta/processor.py`) against its specification.

The embedding models the pixel buffer only through its dimensions (the
claims under study are about dimensions, qualities and byte sizes).  The
external JPEG codec is abstracted as a size function
`sz : Img → Nat → Option Bytes → Nat` giving the byte size of the encoding
of an image at a quality with an optional EXIF payload attached; every
encode attempt performed by the algorithms is recorded in a trace of
`Enc` values so that statements about "every encode attempt" can be made.

Python floating point arithmetic is idealized as exact rational
arithmetic followed by truncation (`Nat.floor` on nonnegative values
models Python's `int(...)`); the single genuinely float-dependent
quantity, `(max_size_bytes / size) ** 0.5 * 0.98` in the scaling loop of
`_save_with_size_and_scale_optimization`, is abstracted as a parameter
`sqrtFac : Nat → Nat → ℚ`, and all theorems quantify over it.
-/

namespace PrepForInsta

/-- Raw EXIF payload bytes (`exif_bytes` in the source), one `Nat` per byte. -/
abbrev Bytes := List Nat

/-- A pixel buffer, modelled by its dimensions (`img.size` in PIL). -/
structure Img where
  width : Nat
  height : Nat
deriving DecidableEq, Repr

/-- `ImageProcessor.PORTRAIT_SIZE`. -/
def PORTRAIT_SIZE : Nat × Nat := (1080, 1350)

/-- `ImageProcessor.LANDSCAPE_MAX_LONG_EDGE`. -/
def LANDSCAPE_MAX_LONG_EDGE : Nat := 1350

/-- `ImageProcessor.SQUARE_SIZE`. -/
def SQUARE_SIZE : Nat × Nat := (1080, 1080)

/-- `ImageProcessor.MAX_FILE_SIZE_BYTES = 8 * 1024 * 1024`. -/
def MAX_FILE_SIZE_BYTES : Nat := 8 * 1024 * 1024

/-- The three orientation classes returned by `_get_orientation`. -/
inductive Orientation where
  | square
  | portrait
  | landscape
deriving DecidableEq, Repr

/-- `_get_orientation`: aspect ratio `width / height`; square within the
band `[0.98, 1.02]`, else portrait when `height > width`, else landscape. -/
def getOrientation (img : Img) : Orientation :=
  let aspect : ℚ := (img.width : ℚ) / (img.height : ℚ)
  if (49 : ℚ)/50 ≤ aspect ∧ aspect ≤ (51 : ℚ)/50 then Orientation.square
  else if img.width < img.height then Orientation.portrait
  else Orientation.landscape

/-- `_center_crop_to_ratio`, returning the crop box `(left, upper, right,
lower)` passed to `img.crop`.  `int(...)` on the nonnegative products is
`Nat.floor`; the Python `// 2` on nonnegative ints is `Nat` division. -/
def centerCropBox (img : Img) (targetRatio : ℚ) : Nat × Nat × Nat × Nat :=
  if targetRatio < (img.width : ℚ) / (img.height : ℚ) then
    let newWidth := ⌊(img.height : ℚ) * targetRatio⌋₊
    let left := (img.width - newWidth) / 2
    (left, 0, left + newWidth, img.height)
  else
    let newHeight := ⌊(img.width : ℚ) / targetRatio⌋₊
    let top := (img.height - newHeight) / 2
    (0, top, img.width, top + newHeight)

/-- Dimensions of the buffer returned by `_center_crop_to_ratio` (a PIL
crop of box `(l, u, r, d)` has dimensions `(r - l, d - u)`). -/
def centerCropToRatio (img : Img) (targetRatio : ℚ) : Img :=
  let b := centerCropBox img targetRatio
  ⟨b.2.2.1 - b.1, b.2.2.2 - b.2.1⟩

/-- Python's `min([a, b], key=k)`: the first of the two on a tie. -/
def pickMinKey (a b : Nat) (k : Nat → ℚ) : Nat :=
  if k a ≤ k b then a else b

/-- Dimensions produced by Pillow's `Image.thumbnail(size)` (the external
imaging library call inside `_resize_to_fit`): return unchanged when the
buffer already fits, otherwise keep the binding edge and round the other
edge to floor or ceiling of the proportional value, whichever minimizes
the aspect-ratio error (at least 1 pixel). -/
def thumbnailNewSize (img : Img) (maxW maxH : Nat) : Img :=
  if maxW ≥ img.width ∧ maxH ≥ img.height then img
  else
    let aspect : ℚ := (img.width : ℚ) / (img.height : ℚ)
    if (maxW : ℚ) / (maxH : ℚ) ≥ aspect then
      let number := (maxH : ℚ) * aspect
      let x := max (pickMinKey ⌊number⌋₊ ⌈number⌉₊
        (fun n => |aspect - (n : ℚ) / (maxH : ℚ)|)) 1
      ⟨x, maxH⟩
    else
      let number := (maxW : ℚ) / aspect
      let y := max (pickMinKey ⌊number⌋₊ ⌈number⌉₊
        (fun n => if n = 0 then 0 else |aspect - (maxW : ℚ) / (n : ℚ)|)) 1
      ⟨maxW, y⟩

/-- `_resize_to_fit`: delegates to `img.thumbnail(max_size, LANCZOS)`. -/
def resizeToFit (img : Img) (maxSize : Nat × Nat) : Img :=
  thumbnailNewSize img maxSize.1 maxSize.2

/-- `_resize_landscape`: scale the longer edge down to `maxLongEdge` when
it exceeds it (shorter edge `int(short * (maxLongEdge / long))`),
otherwise leave the buffer unchanged. -/
def resizeLandscape (img : Img) (maxLongEdge : Nat) : Img :=
  if img.height < img.width then
    if maxLongEdge < img.width then
      ⟨maxLongEdge, ⌊(img.height : ℚ) * ((maxLongEdge : ℚ) / (img.width : ℚ))⌋₊⟩
    else img
  else
    if maxLongEdge < img.height then
      ⟨⌊(img.width : ℚ) * ((maxLongEdge : ℚ) / (img.height : ℚ))⌋₊, maxLongEdge⟩
    else img

/-- The orientation-dependent geometry step of `process_image` (lines
212-222): portrait is center-cropped to 4:5 then fit into 1080x1350,
landscape is resized to long edge 1350, square is fit into 1080x1080. -/
def processImageGeometry (img : Img) : Img :=
  match getOrientation img with
  | Orientation.portrait => resizeToFit (centerCropToRatio img ((4 : ℚ)/5)) PORTRAIT_SIZE
  | Orientation.landscape => resizeLandscape img LANDSCAPE_MAX_LONG_EDGE
  | Orientation.square => resizeToFit img SQUARE_SIZE

/-- piexif.ImageIFD.DateTime (EXIF tag 0x0132). -/
def ImageIFD_DateTime : Nat := 306

/-- piexif.ExifIFD.DateTimeOriginal (EXIF tag 0x9003). -/
def ExifIFD_DateTimeOriginal : Nat := 36867

/-- piexif.ExifIFD.DateTimeDigitized (EXIF tag 0x9004). -/
def ExifIFD_DateTimeDigitized : Nat := 36868

/-- One EXIF IFD group: an association list from tag id to (opaque) value. -/
abbrev IFD := List (Nat × Nat)

/-- The tag tree produced by `piexif.load`; each group may be absent
(Python `"GPS" in exif_dict` tests key presence). -/
structure ExifDict where
  zeroth : Option IFD
  exifIFD : Option IFD
  gps : Option IFD
  first : Option IFD
  thumb : Option Nat

/-- The dict `{"0th": ..., "Exif": ..., "GPS": ...}` returned by
`_preserve_gps_datetime`: every group present, possibly empty. -/
structure TrimmedExif where
  zeroth : IFD
  exifIFD : IFD
  gps : IFD
deriving DecidableEq, Repr

/-- `_preserve_gps_datetime`: keep the whole GPS block when present and
truthy (non-empty), the DateTime tag from the 0th IFD, and the
DateTimeOriginal / DateTimeDigitized tags from the Exif IFD. -/
def preserveGpsDatetime (d : ExifDict) : TrimmedExif :=
  let gps : IFD :=
    match d.gps with
    | some g => if g = [] then [] else g
    | none => []
  let zeroth : IFD :=
    match d.zeroth with
    | some z =>
      match z.lookup ImageIFD_DateTime with
      | some v => [(ImageIFD_DateTime, v)]
      | none => []
    | none => []
  let exifIFD : IFD :=
    match d.exifIFD with
    | some e =>
      (match e.lookup ExifIFD_DateTimeOriginal with
       | some v => [(ExifIFD_DateTimeOriginal, v)]
       | none => []) ++
      (match e.lookup ExifIFD_DateTimeDigitized with
       | some v => [(ExifIFD_DateTimeDigitized, v)]
       | none => [])
    | none => []
  ⟨zeroth, exifIFD, gps⟩

/-- The abstract JPEG codec: byte size of the progressive, optimized
encoding of a buffer at an integer quality with an optional EXIF payload
attached.  Qualities are `Int`, as Python ints (the Mode A loop returns
a quality that has been decremented below 60). -/
abbrev SizeFn := Img → Int → Option Bytes → Nat

/-- One encode attempt (`img.save(buffer, **save_kwargs)`): the buffer,
the quality, and the `exif` keyword argument (absent when `exif_bytes`
is falsy).  An `Enc` value also identifies the bytes of the produced
encoding. -/
structure Enc where
  img : Img
  quality : Int
  exif : Option Bytes
deriving DecidableEq, Repr

/-- The `exif` keyword passed to `img.save`: the Python code sets it only
when `exif_bytes` is truthy (`if exif_bytes: save_kwargs["exif"] = exif_bytes`). -/
def exifKw (eb : Option Bytes) : Option Bytes :=
  match eb with
  | some b => if b = [] then none else some b
  | none => none

/-- The quality loop of `_save_with_size_optimization` (lines 155-181).
State: the current quality and the last encoded buffer (`none` before the
first iteration).  Result: `some (returned_quality, written_encoding)`
on normal return, `none` when the function would read the never-assigned
local `buffer` (Python `UnboundLocalError`), paired with the trace of
encode attempts. -/
def saveQualityLoop (sz : SizeFn) (C : Nat) (img : Img) (eb : Option Bytes)
    (q : Int) (last : Option Enc) : Option (Int × Enc) × List Enc :=
  if h : 60 ≤ q then
    let e : Enc := ⟨img, q, exifKw eb⟩
    if sz img q (exifKw eb) ≤ C then (some (q, e), [e])
    else
      let r := saveQualityLoop sz C img eb (q - 5) (some e)
      (r.1, e :: r.2)
  else
    match last with
    | some e => (some (q, e), [])
    | none => (none, [])
termination_by (q + 1).toNat
decreasing_by omega

/-- `_save_with_size_optimization`: run the quality loop from
`start_quality` with the fixed ceiling `MAX_FILE_SIZE_BYTES`. -/
def saveWithSizeOptimization (sz : SizeFn) (img : Img) (eb : Option Bytes)
    (startQuality : Int) : Option (Int × Enc) × List Enc :=
  saveQualityLoop sz MAX_FILE_SIZE_BYTES img eb startQuality none

/-- Step 1 of `_save_with_size_and_scale_optimization` (lines 325-345):
at most 5 iterations; encode at quality 95, stop when the size fits or
the scale factor reaches 0.99, otherwise scale both dimensions by the
factor (at least 100 px each) and retry.  `sqrtFac C size` abstracts the
float expression `(max_size_bytes / size) ** 0.5 * 0.98`. -/
def scaleLoop (sz : SizeFn) (sqrtFac : Nat → Nat → ℚ) (C : Nat)
    (eb : Option Bytes) : Nat → Img → Img × List Enc
  | 0, cur => (cur, [])
  | n + 1, cur =>
    let e : Enc := ⟨cur, 95, exifKw eb⟩
    let size := sz cur 95 (exifKw eb)
    if size ≤ C then (cur, [e])
    else
      let s := sqrtFac C size
      if (99 : ℚ)/100 ≤ s then (cur, [e])
      else
        let nw := max 100 ⌊(cur.width : ℚ) * s⌋₊
        let nh := max 100 ⌊(cur.height : ℚ) * s⌋₊
        let r := scaleLoop sz sqrtFac C eb n ⟨nw, nh⟩
        (r.1, e :: r.2)

/-- Step 2 of `_save_with_size_and_scale_optimization` (lines 347-365):
binary search over integer qualities; on a fit raise the lower bound and
record the buffer as best, otherwise lower the upper bound.  Returns
`(best_quality, best_buffer, trace)`. -/
def qualityBinarySearch (sz : SizeFn) (C : Nat) (eb : Option Bytes) (img : Img)
    (lo hi best : Int) (bb : Option Enc) : Int × Option Enc × List Enc :=
  if h : lo ≤ hi then
    let mid := (lo + hi) / 2
    let e : Enc := ⟨img, mid, exifKw eb⟩
    if sz img mid (exifKw eb) ≤ C then
      let r := qualityBinarySearch sz C eb img (mid + 1) hi mid (some e)
      (r.1, r.2.1, e :: r.2.2)
    else
      let r := qualityBinarySearch sz C eb img lo (mid - 1) best bb
      (r.1, r.2.1, e :: r.2.2)
  else (best, bb, [])
termination_by (hi + 1 - lo).toNat
decreasing_by
· omega
· omega

/-- Fuel-indexed version of `qualityBinarySearch`, used only to evaluate
the search on concrete inputs by kernel reduction; it agrees with
`qualityBinarySearch` for sufficient fuel (`qualityBinarySearch_eq_fuel`). -/
def qualityBinarySearchFuel (sz : SizeFn) (C : Nat) (eb : Option Bytes) (img : Img) :
    Nat → Int → Int → Int → Option Enc → Int × Option Enc × List Enc
  | 0, _, _, best, bb => (best, bb, [])
  | n + 1, lo, hi, best, bb =>
    if lo ≤ hi then
      let mid := (lo + hi) / 2
      let e : Enc := ⟨img, mid, exifKw eb⟩
      if sz img mid (exifKw eb) ≤ C then
        let r := qualityBinarySearchFuel sz C eb img n (mid + 1) hi mid (some e)
        (r.1, r.2.1, e :: r.2.2)
      else
        let r := qualityBinarySearchFuel sz C eb img n lo (mid - 1) best bb
        (r.1, r.2.1, e :: r.2.2)
    else (best, bb, [])

/-- Result of `_save_with_size_and_scale_optimization`: the returned
quality, the returned (possibly rescaled) buffer, the encoding written
to the output path, and the trace of all encode attempts. -/
structure BResult where
  quality : Int
  finalImg : Img
  written : Enc
  trace : List Enc
deriving DecidableEq, Repr

/-- `_save_with_size_and_scale_optimization` (lines 295-381): scale loop,
then quality binary search in [60, 100] starting from best quality 60 and
no best buffer; write the best buffer when one exists, otherwise scale
once more by 0.8 and write a single encode at quality 80. -/
def saveWithSizeAndScaleOptimization (sz : SizeFn) (sqrtFac : Nat → Nat → ℚ)
    (C : Nat) (eb : Option Bytes) (img : Img) : BResult :=
  let p := scaleLoop sz sqrtFac C eb 5 img
  let cur := p.1
  let r := qualityBinarySearch sz C eb cur 60 100 60 none
  match r.2.1 with
  | some e => ⟨r.1, cur, e, p.2 ++ r.2.2⟩
  | none =>
    let cur' : Img := ⟨⌊(cur.width : ℚ) * ((8 : ℚ)/10)⌋₊, ⌊(cur.height : ℚ) * ((8 : ℚ)/10)⌋₊⟩
    let e : Enc := ⟨cur', 80, exifKw eb⟩
    ⟨80, cur', e, p.2 ++ r.2.2 ++ [e]⟩

/-- A quality step of the Mode A loop: reachable from `q0` by steps of 5,
at least 60, and its encoding fits the ceiling. -/
def stepFit (sz : SizeFn) (C : Nat) (img : Img) (eb : Option Bytes)
    (q0 q : Int) : Prop :=
  q ≤ q0 ∧ (q0 - q) % 5 = 0 ∧ 60 ≤ q ∧ sz img q (exifKw eb) ≤ C

instance (sz : SizeFn) (C : Nat) (img : Img) (eb : Option Bytes) (q0 q : Int) :
    Decidable (stepFit sz C img eb q0 q) := by
  unfold stepFit; infer_instance

/-! ### The Mode A quality loop -/

theorem saveQualityLoop_found (sz : SizeFn) (C : Nat) (img : Img) (eb : Option Bytes) :
    ∀ n : Nat, ∀ q : Int, ∀ last : Option Enc, (q + 1).toNat ≤ n →
      (∃ q', stepFit sz C img eb q q') →
      ∃ qs, stepFit sz C img eb q qs ∧ (∀ q', stepFit sz C img eb q q' → q' ≤ qs) ∧
        (saveQualityLoop sz C img eb q last).1 = some (qs, ⟨img, qs, exifKw eb⟩) := by
  intro n
  induction n with
  | zero =>
    intro q last hn hex
    exfalso
    obtain ⟨q', hq1, _, hq3, _⟩ := hex
    omega
  | succ n ih =>
    intro q last hn hex
    obtain ⟨q', hq1, hq2, hq3, hq4⟩ := hex
    have h60 : (60 : Int) ≤ q := le_trans hq3 hq1
    rw [saveQualityLoop.eq_def, dif_pos h60]
    by_cases hfit : sz img q (exifKw eb) ≤ C
    · rw [if_pos hfit]
      exact ⟨q, ⟨le_refl q, by omega, h60, hfit⟩, fun q' h => h.1, rfl⟩
    · rw [if_neg hfit]
      have hne : q' ≠ q := by
        intro h
        exact hfit (h ▸ hq4)
      have hle : q' ≤ q - 5 := by omega
      have hrec := ih (q - 5) (some ⟨img, q, exifKw eb⟩) (by omega)
        ⟨q', hle, by omega, hq3, hq4⟩
      obtain ⟨qs, ⟨hs1, hs2, hs3, hs4⟩, hgr, hres⟩ := hrec
      refine ⟨qs, ⟨by omega, by omega, hs3, hs4⟩, ?_, hres⟩
      intro q'' h''
      obtain ⟨h''1, h''2, h''3, h''4⟩ := h''
      by_cases hq : q'' = q
      · exact absurd (hq ▸ h''4) hfit
      · exact hgr q'' ⟨by omega, by omega, h''3, h''4⟩

theorem saveQualityLoop_nofit (sz : SizeFn) (C : Nat) (img : Img) (eb : Option Bytes) :
    ∀ n : Nat, ∀ q : Int, ∀ last : Option Enc, (q + 1).toNat ≤ n → 60 ≤ q →
      (∀ q', ¬ stepFit sz C img eb q q') →
      (saveQualityLoop sz C img eb q last).1 =
        some (60 + (q - 60) % 5 - 5, ⟨img, 60 + (q - 60) % 5, exifKw eb⟩) := by
  intro n
  induction n with
  | zero => intro q last hn h60 _; omega
  | succ n ih =>
    intro q last hn h60 hno
    have hfit : ¬ sz img q (exifKw eb) ≤ C := by
      intro hfit
      exact hno q ⟨le_refl q, by omega, h60, hfit⟩
    rw [saveQualityLoop.eq_def, dif_pos h60, if_neg hfit]
    by_cases h60' : (60 : Int) ≤ q - 5
    · have hrec := ih (q - 5) (some ⟨img, q, exifKw eb⟩) (by omega) h60' ?_
      · have heq1 : 60 + (q - 5 - 60) % 5 - 5 = 60 + (q - 60) % 5 - 5 := by omega
        have heq2 : 60 + (q - 5 - 60) % 5 = 60 + (q - 60) % 5 := by omega
        rw [heq1, heq2] at hrec
        exact hrec
      · intro q' hq'
        obtain ⟨h1, h2, h3, h4⟩ := hq'
        exact hno q' ⟨by omega, by omega, h3, h4⟩
    · have hq5 : ¬ (60 : Int) ≤ q - 5 := h60'
      have : (saveQualityLoop sz C img eb (q - 5) (some ⟨img, q, exifKw eb⟩)).1 =
          some (q - 5, ⟨img, q, exifKw eb⟩) := by
        rw [saveQualityLoop.eq_def, dif_neg hq5]
      have heq1 : 60 + (q - 60) % 5 - 5 = q - 5 := by omega
      have heq2 : 60 + (q - 60) % 5 = q := by omega
      rw [heq1, heq2]
      exact this

theorem saveQualityLoop_exif (sz : SizeFn) (C : Nat) (img : Img) (eb : Option Bytes) :
    ∀ n : Nat, ∀ q : Int, ∀ last : Option Enc, (q + 1).toNat ≤ n →
      ∀ e ∈ (saveQualityLoop sz C img eb q last).2, e.exif = exifKw eb := by
  intro n
  induction n with
  | zero =>
    intro q last hn
    have h60 : ¬ (60 : Int) ≤ q := by omega
    rw [saveQualityLoop.eq_def, dif_neg h60]
    cases last <;> simp
  | succ n ih =>
    intro q last hn
    by_cases h60 : (60 : Int) ≤ q
    · rw [saveQualityLoop.eq_def, dif_pos h60]
      by_cases hfit : sz img q (exifKw eb) ≤ C
      · rw [if_pos hfit]
        intro e he
        simp only [List.mem_singleton] at he
        rw [he]
      · rw [if_neg hfit]
        intro e he
        simp only [List.mem_cons] at he
        rcases he with he | he
        · rw [he]
        · exact ih (q - 5) (some ⟨img, q, exifKw eb⟩) (by omega) e he
    · rw [saveQualityLoop.eq_def, dif_neg h60]
      cases last <;> simp

/-- C1 (amended): for a start quality `Q0 ∈ [60, 100]`, when some quality
in `{Q0, Q0-5, ...} ∩ [60, ∞)` has an encoding within the 8 MiB ceiling,
`_save_with_size_optimization` returns the largest such quality and
writes exactly its encoding; when none fits, the encoding at the lowest
tried step (the least element of the step set that is `≥ 60`) is written
anyway, and the returned quality is that step minus 5 — a value in
`[55, 59]`, not the floor 60. -/
theorem save_with_size_optimization_spec (sz : SizeFn) (img : Img) (eb : Option Bytes)
    (q0 : Int) (h1 : 60 ≤ q0) (h2 : q0 ≤ 100) :
    ((∃ q, stepFit sz MAX_FILE_SIZE_BYTES img eb q0 q) →
      ∃ qs, stepFit sz MAX_FILE_SIZE_BYTES img eb q0 qs ∧
        (∀ q', stepFit sz MAX_FILE_SIZE_BYTES img eb q0 q' → q' ≤ qs) ∧
        (saveWithSizeOptimization sz img eb q0).1 = some (qs, ⟨img, qs, exifKw eb⟩))
    ∧ ((∀ q, ¬ stepFit sz MAX_FILE_SIZE_BYTES img eb q0 q) →
      (saveWithSizeOptimization sz img eb q0).1 =
        some (60 + (q0 - 60) % 5 - 5, ⟨img, 60 + (q0 - 60) % 5, exifKw eb⟩)) := by
  constructor
  · intro hex
    exact saveQualityLoop_found sz MAX_FILE_SIZE_BYTES img eb (q0 + 1).toNat q0 none le_rfl hex
  · intro hno
    exact saveQualityLoop_nofit sz MAX_FILE_SIZE_BYTES img eb (q0 + 1).toNat q0 none le_rfl h1 hno

/-- Witness for the Mode A specification at a concrete encoder whose
encodings fit exactly below quality 90. -/
theorem save_with_size_optimization_spec_witness :
    (60 : Int) ≤ 100 ∧ (100 : Int) ≤ 100 ∧
    (((∃ q, stepFit (fun _ q _ => if 90 ≤ q then MAX_FILE_SIZE_BYTES + 1 else 0)
          MAX_FILE_SIZE_BYTES ⟨200, 250⟩ none 100 q) →
      ∃ qs, stepFit (fun _ q _ => if 90 ≤ q then MAX_FILE_SIZE_BYTES + 1 else 0)
          MAX_FILE_SIZE_BYTES ⟨200, 250⟩ none 100 qs ∧
        (∀ q', stepFit (fun _ q _ => if 90 ≤ q then MAX_FILE_SIZE_BYTES + 1 else 0)
            MAX_FILE_SIZE_BYTES ⟨200, 250⟩ none 100 q' → q' ≤ qs) ∧
        (saveWithSizeOptimization (fun _ q _ => if 90 ≤ q then MAX_FILE_SIZE_BYTES + 1 else 0)
            ⟨200, 250⟩ none 100).1 = some (qs, ⟨⟨200, 250⟩, qs, exifKw none⟩))
    ∧ ((∀ q, ¬ stepFit (fun _ q _ => if 90 ≤ q then MAX_FILE_SIZE_BYTES + 1 else 0)
          MAX_FILE_SIZE_BYTES ⟨200, 250⟩ none 100 q) →
      (saveWithSizeOptimization (fun _ q _ => if 90 ≤ q then MAX_FILE_SIZE_BYTES + 1 else 0)
          ⟨200, 250⟩ none 100).1 =
        some (60 + (100 - 60) % 5 - 5, ⟨⟨200, 250⟩, 60 + (100 - 60) % 5, exifKw none⟩))) :=
  ⟨by norm_num, by norm_num,
    save_with_size_optimization_spec
      (fun _ q _ => if 90 ≤ q then MAX_FILE_SIZE_BYTES + 1 else 0)
      ⟨200, 250⟩ none 100 (by norm_num) (by norm_num)⟩

/-- C1 counterexample: with start quality 60 and every encoding exceeding
the ceiling, `_save_with_size_optimization` returns 55, not the floor 60
claimed by the specification. -/
theorem save_with_size_optimization_floor_counterexample :
    (saveWithSizeOptimization (fun _ _ _ => MAX_FILE_SIZE_BYTES + 1) ⟨100, 100⟩ none 60).1 =
      some (55, ⟨⟨100, 100⟩, 60, none⟩) ∧ (55 : Int) ≠ 60 := by
  constructor
  · have h1 : (60 : Int) ≤ 60 := le_refl _
    have h2 : ¬ (MAX_FILE_SIZE_BYTES + 1 ≤ MAX_FILE_SIZE_BYTES) := by omega
    have h3 : ¬ (60 : Int) ≤ 60 - 5 := by norm_num
    rw [saveWithSizeOptimization, saveQualityLoop.eq_def, dif_pos h1, if_neg h2]
    show (saveQualityLoop _ _ _ _ (60 - 5) (some ⟨⟨100, 100⟩, 60, exifKw none⟩)).1 = _
    rw [saveQualityLoop.eq_def, dif_neg h3]
    simp [exifKw]
  · decide

/-- C10: `_save_with_size_optimization` always produces a written output
when `start_quality ≥ 60` (with a non-empty trace of encode attempts),
and fails without writing anything (the never-assigned local `buffer` is
read) when `start_quality < 60`. -/
theorem save_with_size_optimization_precondition (sz : SizeFn) (img : Img)
    (eb : Option Bytes) (q0 : Int) :
    (60 ≤ q0 → (∃ r, (saveWithSizeOptimization sz img eb q0).1 = some r) ∧
      (saveWithSizeOptimization sz img eb q0).2 ≠ [])
    ∧ (q0 < 60 → saveWithSizeOptimization sz img eb q0 = (none, [])) := by
  constructor
  · intro h60
    constructor
    · by_cases hex : ∃ q, stepFit sz MAX_FILE_SIZE_BYTES img eb q0 q
      · obtain ⟨qs, _, _, hres⟩ :=
          saveQualityLoop_found sz MAX_FILE_SIZE_BYTES img eb (q0 + 1).toNat q0 none le_rfl hex
        exact ⟨_, hres⟩
      · push_neg at hex
        have hres := saveQualityLoop_nofit sz MAX_FILE_SIZE_BYTES img eb
          (q0 + 1).toNat q0 none le_rfl h60 hex
        exact ⟨_, hres⟩
    · rw [saveWithSizeOptimization, saveQualityLoop.eq_def, dif_pos h60]
      by_cases hfit : sz img q0 (exifKw eb) ≤ MAX_FILE_SIZE_BYTES
      · rw [if_pos hfit]; simp
      · rw [if_neg hfit]; simp
  · intro hlt
    rw [saveWithSizeOptimization, saveQualityLoop.eq_def, dif_neg (by omega : ¬ (60 : Int) ≤ q0)]

/-- Witness for C10 at start qualities 70 and 50. -/
theorem save_with_size_optimization_precondition_witness :
    ((60 : Int) ≤ 70 ∧
      ((∃ r, (saveWithSizeOptimization (fun _ _ _ => 0) ⟨10, 10⟩ none 70).1 = some r) ∧
        (saveWithSizeOptimization (fun _ _ _ => 0) ⟨10, 10⟩ none 70).2 ≠ []))
    ∧ ((50 : Int) < 60 ∧
      saveWithSizeOptimization (fun _ _ _ => 0) ⟨10, 10⟩ none 50 = (none, [])) :=
  ⟨⟨by norm_num,
    (save_with_size_optimization_precondition (fun _ _ _ => 0) ⟨10, 10⟩ none 70).1 (by norm_num)⟩,
   ⟨by norm_num,
    (save_with_size_optimization_precondition (fun _ _ _ => 0) ⟨10, 10⟩ none 50).2 (by norm_num)⟩⟩

/-! ### Orientation classification -/

/-- C5: with `r = width / height`, the classification is square iff
`0.98 ≤ r ≤ 1.02`, portrait iff `r < 0.98`, landscape iff `r > 1.02`
(for positive dimensions); it is a function of the dimensions only. -/
theorem get_orientation_spec (img : Img) (hw : 0 < img.width) (hh : 0 < img.height) :
    (getOrientation img = Orientation.square ↔
      (49 : ℚ)/50 ≤ (img.width : ℚ) / (img.height : ℚ) ∧
        (img.width : ℚ) / (img.height : ℚ) ≤ (51 : ℚ)/50)
    ∧ (getOrientation img = Orientation.portrait ↔
      (img.width : ℚ) / (img.height : ℚ) < (49 : ℚ)/50)
    ∧ (getOrientation img = Orientation.landscape ↔
      (51 : ℚ)/50 < (img.width : ℚ) / (img.height : ℚ)) := by
  have hhq : (0 : ℚ) < (img.height : ℚ) := by exact_mod_cast hh
  set r : ℚ := (img.width : ℚ) / (img.height : ℚ) with hr
  have hwlt : img.width < img.height ↔ r < 1 := by
    rw [hr, div_lt_one hhq]
    exact (Nat.cast_lt).symm
  have hwge : ¬ img.width < img.height ↔ 1 ≤ r := by
    rw [hwlt]; push_neg; exact Iff.rfl
  unfold getOrientation
  rw [← hr]
  by_cases hband : (49 : ℚ)/50 ≤ r ∧ r ≤ (51 : ℚ)/50
  · rw [if_pos hband]
    refine ⟨iff_of_true rfl hband, iff_of_false (by decide) ?_, iff_of_false (by decide) ?_⟩
    · linarith [hband.1]
    · linarith [hband.2]
  · rw [if_neg hband]
    by_cases hpl : img.width < img.height
    · rw [if_pos hpl]
      have hr1 : r < 1 := hwlt.mp hpl
      have hlow : r < (49 : ℚ)/50 := by
        by_contra hge
        push_neg at hge
        exact hband ⟨hge, by linarith⟩
      exact ⟨iff_of_false (by decide) (fun h => hband h),
        iff_of_true rfl hlow, iff_of_false (by decide) (by linarith)⟩
    · rw [if_neg hpl]
      have hr1 : 1 ≤ r := hwge.mp hpl
      have hhigh : (51 : ℚ)/50 < r := by
        by_contra hge
        push_neg at hge
        exact hband ⟨by linarith, hge⟩
      exact ⟨iff_of_false (by decide) (fun h => hband h),
        iff_of_false (by decide) (by linarith), iff_of_true rfl hhigh⟩

/-- Witness for C5 at a 3x4 (portrait) image. -/
theorem get_orientation_spec_witness :
    0 < (Img.mk 3 4).width ∧ 0 < (Img.mk 3 4).height ∧
    ((getOrientation ⟨3, 4⟩ = Orientation.square ↔
      (49 : ℚ)/50 ≤ ((Img.mk 3 4).width : ℚ) / ((Img.mk 3 4).height : ℚ) ∧
        ((Img.mk 3 4).width : ℚ) / ((Img.mk 3 4).height : ℚ) ≤ (51 : ℚ)/50)
    ∧ (getOrientation ⟨3, 4⟩ = Orientation.portrait ↔
      ((Img.mk 3 4).width : ℚ) / ((Img.mk 3 4).height : ℚ) < (49 : ℚ)/50)
    ∧ (getOrientation ⟨3, 4⟩ = Orientation.landscape ↔
      (51 : ℚ)/50 < ((Img.mk 3 4).width : ℚ) / ((Img.mk 3 4).height : ℚ))) :=
  ⟨by norm_num, by norm_num, get_orientation_spec ⟨3, 4⟩ (by norm_num) (by norm_num)⟩

/-! ### Landscape resizing -/

theorem floor_mul_ratio_le (a b c : Nat) (h : c ≤ b) :
    ⌊(a : ℚ) * ((c : ℚ) / (b : ℚ))⌋₊ ≤ a := by
  rcases Nat.eq_zero_or_pos b with hb | hb
  · have hc : c = 0 := by omega
    subst hb; subst hc
    simp
  · have hbq : (0 : ℚ) < (b : ℚ) := by exact_mod_cast hb
    have hle : (a : ℚ) * ((c : ℚ) / (b : ℚ)) ≤ (a : ℚ) := by
      have h1 : (c : ℚ) / (b : ℚ) ≤ 1 := by
        rw [div_le_one hbq]
        exact_mod_cast h
      nlinarith [Nat.cast_nonneg (α := ℚ) a]
    calc ⌊(a : ℚ) * ((c : ℚ) / (b : ℚ))⌋₊ ≤ ⌊(a : ℚ)⌋₊ := Nat.floor_mono hle
    _ = a := Nat.floor_natCast a

theorem floor_mul_ratio_le_right (a b c : Nat) (h : a ≤ b) :
    ⌊(a : ℚ) * ((c : ℚ) / (b : ℚ))⌋₊ ≤ c := by
  rcases Nat.eq_zero_or_pos b with hb | hb
  · have ha : a = 0 := by omega
    subst hb; subst ha
    simp
  · have hbq : (0 : ℚ) < (b : ℚ) := by exact_mod_cast hb
    have hle : (a : ℚ) * ((c : ℚ) / (b : ℚ)) ≤ (c : ℚ) := by
      rw [mul_div_assoc'] at *
      rw [div_le_iff hbq]
      have haq : (a : ℚ) ≤ (b : ℚ) := by exact_mod_cast h
      nlinarith [Nat.cast_nonneg (α := ℚ) c]
    calc ⌊(a : ℚ) * ((c : ℚ) / (b : ℚ))⌋₊ ≤ ⌊(c : ℚ)⌋₊ := Nat.floor_mono hle
    _ = c := Nat.floor_natCast c

/-- C7 (amended): when the longer edge exceeds 1350, `_resize_landscape`
sets the longer edge to exactly 1350 and the shorter edge to the
proportional value truncated (floored) — not rounded to nearest; when the
longer edge is at most 1350, the buffer is unchanged; no dimension is
ever enlarged. -/
theorem resize_landscape_spec (img : Img) :
    ((1350 < img.width ∨ 1350 < img.height) →
      max (resizeLandscape img 1350).width (resizeLandscape img 1350).height = 1350
      ∧ (img.height < img.width →
          resizeLandscape img 1350 =
            ⟨1350, ⌊(img.height : ℚ) * ((1350 : ℚ) / (img.width : ℚ))⌋₊⟩)
      ∧ (img.width ≤ img.height →
          resizeLandscape img 1350 =
            ⟨⌊(img.width : ℚ) * ((1350 : ℚ) / (img.height : ℚ))⌋₊, 1350⟩))
    ∧ (max img.width img.height ≤ 1350 → resizeLandscape img 1350 = img)
    ∧ (resizeLandscape img 1350).width ≤ img.width
    ∧ (resizeLandscape img 1350).height ≤ img.height := by
  by_cases hcmp : img.height < img.width
  · by_cases hbig : 1350 < img.width
    · have hres : resizeLandscape img 1350 =
          ⟨1350, ⌊(img.height : ℚ) * ((1350 : ℚ) / (img.width : ℚ))⌋₊⟩ := by
        rw [resizeLandscape, if_pos hcmp, if_pos hbig]
        norm_num
      have hfl : ⌊(img.height : ℚ) * ((1350 : ℚ) / (img.width : ℚ))⌋₊ ≤ img.height := by
        have := floor_mul_ratio_le img.height img.width 1350 (by omega)
        rw [Nat.cast_ofNat] at this
        exact this
      have hfl2 : ⌊(img.height : ℚ) * ((1350 : ℚ) / (img.width : ℚ))⌋₊ ≤ 1350 := by
        have := floor_mul_ratio_le_right img.height img.width 1350 (by omega)
        rw [Nat.cast_ofNat] at this
        exact this
      refine ⟨fun _ => ⟨?_, fun _ => hres, fun hle => absurd hle (not_le.mpr hcmp)⟩,
        fun hmax => absurd hmax (not_le.mpr (lt_of_lt_of_le hbig (le_max_left _ _))), ?_, ?_⟩
      · rw [hres]
        exact Nat.max_eq_left hfl2
      · rw [hres]
        exact Nat.le_of_lt hbig
      · rw [hres]
        exact hfl
    · have hres : resizeLandscape img 1350 = img := by
        rw [resizeLandscape, if_pos hcmp, if_neg hbig]
      refine ⟨fun hor => ?_, fun _ => hres, ?_, ?_⟩
      · exact absurd hor (by omega)
      · rw [hres]
      · rw [hres]
  · by_cases hbig : 1350 < img.height
    · have hres : resizeLandscape img 1350 =
          ⟨⌊(img.width : ℚ) * ((1350 : ℚ) / (img.height : ℚ))⌋₊, 1350⟩ := by
        rw [resizeLandscape, if_neg hcmp, if_pos hbig]
        norm_num
      have hfl : ⌊(img.width : ℚ) * ((1350 : ℚ) / (img.height : ℚ))⌋₊ ≤ img.width := by
        have := floor_mul_ratio_le img.width img.height 1350 (by omega)
        rw [Nat.cast_ofNat] at this
        exact this
      have hfl2 : ⌊(img.width : ℚ) * ((1350 : ℚ) / (img.height : ℚ))⌋₊ ≤ 1350 := by
        have := floor_mul_ratio_le_right img.width img.height 1350 (by omega)
        rw [Nat.cast_ofNat] at this
        exact this
      refine ⟨fun _ => ⟨?_, fun hlt => absurd hlt hcmp, fun _ => hres⟩,
        fun hmax => absurd hmax (not_le.mpr (lt_of_lt_of_le hbig (le_max_right _ _))), ?_, ?_⟩
      · rw [hres]
        exact Nat.max_eq_right hfl2
      · rw [hres]
        exact hfl
      · rw [hres]
        exact Nat.le_of_lt hbig
    · have hres : resizeLandscape img 1350 = img := by
        rw [resizeLandscape, if_neg hcmp, if_neg hbig]
      refine ⟨fun hor => absurd hor (by omega), fun _ => hres, ?_, ?_⟩
      · rw [hres]
      · rw [hres]

/-- Witness for C7 at a 4000x3000 landscape image. -/
theorem resize_landscape_spec_witness :
    ((1350 < (Img.mk 4000 3000).width ∨ 1350 < (Img.mk 4000 3000).height) →
      max (resizeLandscape ⟨4000, 3000⟩ 1350).width
          (resizeLandscape ⟨4000, 3000⟩ 1350).height = 1350
      ∧ ((Img.mk 4000 3000).height < (Img.mk 4000 3000).width →
          resizeLandscape ⟨4000, 3000⟩ 1350 =
            ⟨1350, ⌊((Img.mk 4000 3000).height : ℚ) *
              ((1350 : ℚ) / ((Img.mk 4000 3000).width : ℚ))⌋₊⟩)
      ∧ ((Img.mk 4000 3000).width ≤ (Img.mk 4000 3000).height →
          resizeLandscape ⟨4000, 3000⟩ 1350 =
            ⟨⌊((Img.mk 4000 3000).width : ℚ) *
              ((1350 : ℚ) / ((Img.mk 4000 3000).height : ℚ))⌋₊, 1350⟩))
    ∧ (max (Img.mk 4000 3000).width (Img.mk 4000 3000).height ≤ 1350 →
        resizeLandscape ⟨4000, 3000⟩ 1350 = ⟨4000, 3000⟩)
    ∧ (resizeLandscape ⟨4000, 3000⟩ 1350).width ≤ (Img.mk 4000 3000).width
    ∧ (resizeLandscape ⟨4000, 3000⟩ 1350).height ≤ (Img.mk 4000 3000).height :=
  resize_landscape_spec ⟨4000, 3000⟩

/-- C7 counterexample: for a 2000x1001 buffer the exact proportional
shorter edge is 675.675; the code truncates to 675, while rounding to
the nearest integer (as the specification claims) would give 676. -/
theorem resize_landscape_nearest_counterexample :
    resizeLandscape ⟨2000, 1001⟩ 1350 = ⟨1350, 675⟩ ∧
    ¬ |(675 : ℚ) - (1001 : ℚ) * ((1350 : ℚ) / (2000 : ℚ))| ≤ 1/2 := by
  constructor
  · rw [resizeLandscape]
    rw [if_pos (by norm_num : (Img.mk 2000 1001).height < (Img.mk 2000 1001).width)]
    rw [if_pos (by norm_num : 1350 < (Img.mk 2000 1001).width)]
    congr 1
    rw [show (((Img.mk 2000 1001).height : ℚ) *
        (((1350 : ℕ) : ℚ) / ((Img.mk 2000 1001).width : ℚ))) = 27027/40 by
      push_cast
      norm_num]
    rw [Nat.floor_eq_iff (by norm_num)]
    norm_num
  · rw [show ((1001 : ℚ) * ((1350 : ℚ) / (2000 : ℚ))) = 27027/40 by norm_num]
    rw [abs_le]
    push_neg
    intro h
    norm_num at h

/-! ### Metadata filter -/

/-- C8: the output of `_preserve_gps_datetime` holds no tag outside the
allow-list: its 0th group carries at most the DateTime tag, its Exif
group at most DateTimeOriginal / DateTimeDigitized, and its GPS group is
either empty or the input's GPS block verbatim; an input with only
non-allow-listed tags yields the present-but-empty structure. -/
theorem preserve_gps_datetime_allowlist (d : ExifDict) :
    (∀ p ∈ (preserveGpsDatetime d).zeroth, p.1 = ImageIFD_DateTime)
    ∧ (∀ p ∈ (preserveGpsDatetime d).exifIFD,
        p.1 = ExifIFD_DateTimeOriginal ∨ p.1 = ExifIFD_DateTimeDigitized)
    ∧ ((preserveGpsDatetime d).gps = [] ∨ some (preserveGpsDatetime d).gps = d.gps)
    ∧ ((∀ z, d.zeroth = some z → z.lookup ImageIFD_DateTime = none) →
       (∀ x, d.exifIFD = some x → x.lookup ExifIFD_DateTimeOriginal = none ∧
          x.lookup ExifIFD_DateTimeDigitized = none) →
       (∀ g, d.gps = some g → g = []) →
       preserveGpsDatetime d = ⟨[], [], []⟩) := by
  obtain ⟨z0, e0, g0, f0, t0⟩ := d
  refine ⟨?_, ?_, ?_, ?_⟩
  · cases z0 with
    | none => simp [preserveGpsDatetime]
    | some z =>
      cases hz : z.lookup ImageIFD_DateTime with
      | none => simp [preserveGpsDatetime, hz]
      | some v => simp [preserveGpsDatetime, hz]
  · cases e0 with
    | none => simp [preserveGpsDatetime]
    | some x =>
      cases ho : x.lookup ExifIFD_DateTimeOriginal with
      | none =>
        cases hd : x.lookup ExifIFD_DateTimeDigitized with
        | none => simp [preserveGpsDatetime, ho, hd]
        | some v => simp [preserveGpsDatetime, ho, hd]
      | some v =>
        cases hd : x.lookup ExifIFD_DateTimeDigitized with
        | none => simp [preserveGpsDatetime, ho, hd]
        | some w =>
          simp only [preserveGpsDatetime, ho, hd, List.mem_append, List.mem_singleton]
          intro p hp
          rcases hp with hp | hp <;> rw [hp] <;> simp
  · cases g0 with
    | none => simp [preserveGpsDatetime]
    | some g =>
      by_cases hg : g = []
      · simp [preserveGpsDatetime, hg]
      · simp [preserveGpsDatetime, hg]
  · intro hz he hg
    cases z0 with
    | some z =>
      have h1 := hz z rfl
      cases e0 with
      | some x =>
        have h2 := he x rfl
        cases g0 with
        | some g =>
          have h3 := hg g rfl
          simp [preserveGpsDatetime, h1, h2.1, h2.2, h3]
        | none => simp [preserveGpsDatetime, h1, h2.1, h2.2]
      | none =>
        cases g0 with
        | some g =>
          have h3 := hg g rfl
          simp [preserveGpsDatetime, h1, h3]
        | none => simp [preserveGpsDatetime, h1]
    | none =>
      cases e0 with
      | some x =>
        have h2 := he x rfl
        cases g0 with
        | some g =>
          have h3 := hg g rfl
          simp [preserveGpsDatetime, h2.1, h2.2, h3]
        | none => simp [preserveGpsDatetime, h2.1, h2.2]
      | none =>
        cases g0 with
        | some g =>
          have h3 := hg g rfl
          simp [preserveGpsDatetime, h3]
        | none => simp [preserveGpsDatetime]

/-! ### The Mode B binary search -/

theorem qualityBinarySearch_nofit (sz : SizeFn) (C : Nat) (eb : Option Bytes) (img : Img) :
    ∀ n : Nat, ∀ lo hi best : Int, ∀ bb : Option Enc, (hi + 1 - lo).toNat ≤ n →
      60 ≤ lo → hi ≤ 100 →
      (∀ q : Int, 60 ≤ q → q ≤ 100 → ¬ sz img q (exifKw eb) ≤ C) →
      (qualityBinarySearch sz C eb img lo hi best bb).1 = best ∧
      (qualityBinarySearch sz C eb img lo hi best bb).2.1 = bb := by
  intro n
  induction n with
  | zero =>
    intro lo hi best bb hn h60 h100 hno
    have hlh : ¬ lo ≤ hi := by omega
    rw [qualityBinarySearch.eq_def, dif_neg hlh]
    exact ⟨rfl, rfl⟩
  | succ n ih =>
    intro lo hi best bb hn h60 h100 hno
    by_cases hlh : lo ≤ hi
    · have hmid1 : 60 ≤ (lo + hi) / 2 := by omega
      have hmid2 : (lo + hi) / 2 ≤ 100 := by omega
      have hfit : ¬ sz img ((lo + hi) / 2) (exifKw eb) ≤ C := hno _ hmid1 hmid2
      rw [qualityBinarySearch.eq_def, dif_pos hlh, if_neg hfit]
      exact ih lo ((lo + hi) / 2 - 1) best bb (by omega) h60 (by omega) hno
    · rw [qualityBinarySearch.eq_def, dif_neg hlh]
      exact ⟨rfl, rfl⟩

theorem qualityBinarySearch_found (sz : SizeFn) (C : Nat) (eb : Option Bytes) (img : Img)
    (mono : ∀ q1 q2 : Int, 60 ≤ q1 → q1 ≤ q2 → q2 ≤ 100 →
      sz img q1 (exifKw eb) ≤ sz img q2 (exifKw eb)) :
    ∀ n : Nat, ∀ lo hi best : Int, ∀ bb : Option Enc, (hi + 1 - lo).toNat ≤ n →
      60 ≤ lo → hi ≤ 100 →
      (∀ q : Int, hi < q → q ≤ 100 → ¬ sz img q (exifKw eb) ≤ C) →
      (∀ q : Int, 60 ≤ q → q < lo → sz img q (exifKw eb) ≤ C → bb ≠ none ∧ q ≤ best) →
      (∀ e, bb = some e → e = ⟨img, best, exifKw eb⟩ ∧ sz img best (exifKw eb) ≤ C ∧
        60 ≤ best ∧ best ≤ 100) →
      (∃ q : Int, 60 ≤ q ∧ q ≤ 100 ∧ sz img q (exifKw eb) ≤ C) →
      (qualityBinarySearch sz C eb img lo hi best bb).2.1 =
        some ⟨img, (qualityBinarySearch sz C eb img lo hi best bb).1, exifKw eb⟩ ∧
      sz img (qualityBinarySearch sz C eb img lo hi best bb).1 (exifKw eb) ≤ C ∧
      60 ≤ (qualityBinarySearch sz C eb img lo hi best bb).1 ∧
      (qualityBinarySearch sz C eb img lo hi best bb).1 ≤ 100 ∧
      (∀ q : Int, 60 ≤ q → q ≤ 100 → sz img q (exifKw eb) ≤ C →
        q ≤ (qualityBinarySearch sz C eb img lo hi best bb).1) := by
  intro n
  induction n with
  | zero =>
    intro lo hi best bb hn h60 h100 hupper hlower hbb hex
    have hlh : ¬ lo ≤ hi := by omega
    rw [qualityBinarySearch.eq_def, dif_neg hlh]
    obtain ⟨q, hq1, hq2, hq3⟩ := hex
    have hqlo : q < lo := by
      by_contra hge
      push_neg at hge
      exact hupper q (by omega) hq2 hq3
    obtain ⟨hbbne, hqbest⟩ := hlower q hq1 hqlo hq3
    obtain ⟨e, he⟩ := Option.ne_none_iff_exists'.mp hbbne
    obtain ⟨he1, he2, he3, he4⟩ := hbb e he
    rw [he, he1]
    refine ⟨rfl, he2, he3, he4, ?_⟩
    intro q' hq'1 hq'2 hq'3
    have hq'lo : q' < lo := by
      by_contra hge
      push_neg at hge
      exact hupper q' (by omega) hq'2 hq'3
    exact (hlower q' hq'1 hq'lo hq'3).2
  | succ n ih =>
    intro lo hi best bb hn h60 h100 hupper hlower hbb hex
    by_cases hlh : lo ≤ hi
    · have hmid1 : 60 ≤ (lo + hi) / 2 := by omega
      have hmid2 : (lo + hi) / 2 ≤ 100 := by omega
      by_cases hfit : sz img ((lo + hi) / 2) (exifKw eb) ≤ C
      · rw [qualityBinarySearch.eq_def, dif_pos hlh, if_pos hfit]
        refine ih ((lo + hi) / 2 + 1) hi ((lo + hi) / 2)
          (some ⟨img, (lo + hi) / 2, exifKw eb⟩) (by omega) (by omega) h100 hupper ?_ ?_ hex
        · intro q hq1 hq2 hq3
          exact ⟨Option.some_ne_none _, by omega⟩
        · intro e he
          injection he with he
          exact ⟨he.symm, hfit, hmid1, hmid2⟩
      · rw [qualityBinarySearch.eq_def, dif_pos hlh, if_neg hfit]
        refine ih lo ((lo + hi) / 2 - 1) best bb (by omega) h60 (by omega) ?_ hlower hbb hex
        intro q hq1 hq2
        by_cases hqhi : hi < q
        · exact hupper q hqhi hq2
        · intro hq3
          exact hfit (le_trans (mono _ q hmid1 (by omega) hq2) hq3)
    · rw [qualityBinarySearch.eq_def, dif_neg hlh]
      obtain ⟨q, hq1, hq2, hq3⟩ := hex
      have hqlo : q < lo := by
        by_contra hge
        push_neg at hge
        exact hupper q (by omega) hq2 hq3
      obtain ⟨hbbne, hqbest⟩ := hlower q hq1 hqlo hq3
      obtain ⟨e, he⟩ := Option.ne_none_iff_exists'.mp hbbne
      obtain ⟨he1, he2, he3, he4⟩ := hbb e he
      rw [he, he1]
      refine ⟨rfl, he2, he3, he4, ?_⟩
      intro q' hq'1 hq'2 hq'3
      have hq'lo : q' < lo := by
        by_contra hge
        push_neg at hge
        exact hupper q' (by omega) hq'2 hq'3
      exact (hlower q' hq'1 hq'lo hq'3).2

theorem natFloor_rat_eq (x : ℚ) (n : Nat) (h1 : (n : ℚ) ≤ x) (h2 : x < n + 1) : ⌊x⌋₊ = n := by
  rw [Nat.floor_eq_iff (le_trans (Nat.cast_nonneg n) h1)]
  exact ⟨h1, h2⟩

theorem qualityBinarySearch_eq_fuel (sz : SizeFn) (C : Nat) (eb : Option Bytes) (img : Img) :
    ∀ n : Nat, ∀ lo hi best : Int, ∀ bb : Option Enc, (hi + 1 - lo).toNat ≤ n →
      qualityBinarySearch sz C eb img lo hi best bb =
        qualityBinarySearchFuel sz C eb img n lo hi best bb := by
  intro n
  induction n with
  | zero =>
    intro lo hi best bb hn
    rw [qualityBinarySearch.eq_def, dif_neg (by omega : ¬ lo ≤ hi)]
    rfl
  | succ n ih =>
    intro lo hi best bb hn
    by_cases hlh : lo ≤ hi
    · rw [qualityBinarySearch.eq_def, qualityBinarySearchFuel, dif_pos hlh, if_pos hlh]
      by_cases hfit : sz img ((lo + hi) / 2) (exifKw eb) ≤ C
      · simp only [if_pos hfit]
        rw [ih ((lo + hi) / 2 + 1) hi ((lo + hi) / 2) (some ⟨img, (lo + hi) / 2, exifKw eb⟩)
          (by omega)]
      · simp only [if_neg hfit]
        rw [ih lo ((lo + hi) / 2 - 1) best bb (by omega)]
    · rw [qualityBinarySearch.eq_def, qualityBinarySearchFuel, dif_neg hlh, if_neg hlh]

theorem saveB_of_some (sz : SizeFn) (sqrtFac : Nat → Nat → ℚ) (C : Nat) (eb : Option Bytes)
    (img : Img) (e : Enc)
    (h : (qualityBinarySearch sz C eb (scaleLoop sz sqrtFac C eb 5 img).1
        60 100 60 none).2.1 = some e) :
    saveWithSizeAndScaleOptimization sz sqrtFac C eb img =
      ⟨(qualityBinarySearch sz C eb (scaleLoop sz sqrtFac C eb 5 img).1 60 100 60 none).1,
       (scaleLoop sz sqrtFac C eb 5 img).1, e,
       (scaleLoop sz sqrtFac C eb 5 img).2 ++
         (qualityBinarySearch sz C eb (scaleLoop sz sqrtFac C eb 5 img).1
           60 100 60 none).2.2⟩ := by
  unfold saveWithSizeAndScaleOptimization
  simp only [h]

theorem saveB_of_none (sz : SizeFn) (sqrtFac : Nat → Nat → ℚ) (C : Nat) (eb : Option Bytes)
    (img : Img)
    (h : (qualityBinarySearch sz C eb (scaleLoop sz sqrtFac C eb 5 img).1
        60 100 60 none).2.1 = none) :
    saveWithSizeAndScaleOptimization sz sqrtFac C eb img =
      ⟨80,
       ⟨⌊((scaleLoop sz sqrtFac C eb 5 img).1.width : ℚ) * ((8 : ℚ)/10)⌋₊,
        ⌊((scaleLoop sz sqrtFac C eb 5 img).1.height : ℚ) * ((8 : ℚ)/10)⌋₊⟩,
       ⟨⟨⌊((scaleLoop sz sqrtFac C eb 5 img).1.width : ℚ) * ((8 : ℚ)/10)⌋₊,
         ⌊((scaleLoop sz sqrtFac C eb 5 img).1.height : ℚ) * ((8 : ℚ)/10)⌋₊⟩, 80, exifKw eb⟩,
       (scaleLoop sz sqrtFac C eb 5 img).2 ++
         (qualityBinarySearch sz C eb (scaleLoop sz sqrtFac C eb 5 img).1 60 100 60 none).2.2 ++
         [⟨⟨⌊((scaleLoop sz sqrtFac C eb 5 img).1.width : ℚ) * ((8 : ℚ)/10)⌋₊,
            ⌊((scaleLoop sz sqrtFac C eb 5 img).1.height : ℚ) * ((8 : ℚ)/10)⌋₊⟩,
           80, exifKw eb⟩]⟩ := by
  unfold saveWithSizeAndScaleOptimization
  simp only [h]

theorem scaleLoop_of_fits (sz : SizeFn) (sqrtFac : Nat → Nat → ℚ) (C : Nat)
    (eb : Option Bytes) (n : Nat) (cur : Img) (h : sz cur 95 (exifKw eb) ≤ C) :
    scaleLoop sz sqrtFac C eb (n + 1) cur = (cur, [⟨cur, 95, exifKw eb⟩]) := by
  rw [scaleLoop]
  simp only [if_pos h]

theorem scaleLoop_exif (sz : SizeFn) (sqrtFac : Nat → Nat → ℚ) (C : Nat) (eb : Option Bytes) :
    ∀ n : Nat, ∀ cur : Img, ∀ e ∈ (scaleLoop sz sqrtFac C eb n cur).2, e.exif = exifKw eb := by
  intro n
  induction n with
  | zero => intro cur e he; simp [scaleLoop] at he
  | succ n ih =>
    intro cur e he
    simp only [scaleLoop] at he
    by_cases h1 : sz cur 95 (exifKw eb) ≤ C
    · rw [if_pos h1] at he
      simp only [List.mem_singleton] at he
      rw [he]
    · rw [if_neg h1] at he
      by_cases h2 : (99 : ℚ)/100 ≤ sqrtFac C (sz cur 95 (exifKw eb))
      · rw [if_pos h2] at he
        simp only [List.mem_singleton] at he
        rw [he]
      · rw [if_neg h2] at he
        simp only [List.mem_cons] at he
        rcases he with he | he
        · rw [he]
        · exact ih _ e he

theorem qualityBinarySearch_exif (sz : SizeFn) (C : Nat) (eb : Option Bytes) (img : Img) :
    ∀ n : Nat, ∀ lo hi best : Int, ∀ bb : Option Enc, (hi + 1 - lo).toNat ≤ n →
      ∀ e ∈ (qualityBinarySearch sz C eb img lo hi best bb).2.2, e.exif = exifKw eb := by
  intro n
  induction n with
  | zero =>
    intro lo hi best bb hn e he
    rw [qualityBinarySearch.eq_def, dif_neg (by omega : ¬ lo ≤ hi)] at he
    simp at he
  | succ n ih =>
    intro lo hi best bb hn e he
    by_cases hlh : lo ≤ hi
    · rw [qualityBinarySearch.eq_def, dif_pos hlh] at he
      by_cases hfit : sz img ((lo + hi) / 2) (exifKw eb) ≤ C
      · rw [if_pos hfit] at he
        simp only [List.mem_cons] at he
        rcases he with he | he
        · rw [he]
        · exact ih ((lo + hi) / 2 + 1) hi ((lo + hi) / 2) _ (by omega) e he
      · rw [if_neg hfit] at he
        simp only [List.mem_cons] at he
        rcases he with he | he
        · rw [he]
        · exact ih lo ((lo + hi) / 2 - 1) best bb (by omega) e he
    · rw [qualityBinarySearch.eq_def, dif_neg hlh] at he
      simp at he

theorem saveWithSizeAndScaleOptimization_exif (sz : SizeFn) (sqrtFac : Nat → Nat → ℚ)
    (C : Nat) (eb : Option Bytes) (img : Img) :
    ∀ e ∈ (saveWithSizeAndScaleOptimization sz sqrtFac C eb img).trace,
      e.exif = exifKw eb := by
  have hsl := scaleLoop_exif sz sqrtFac C eb 5 img
  have hbs := qualityBinarySearch_exif sz C eb (scaleLoop sz sqrtFac C eb 5 img).1
    41 60 100 60 none (by norm_num)
  cases hb : (qualityBinarySearch sz C eb (scaleLoop sz sqrtFac C eb 5 img).1
      60 100 60 none).2.1 with
  | some e' =>
    rw [saveB_of_some sz sqrtFac C eb img e' hb]
    intro e he
    simp only [List.mem_append] at he
    rcases he with he | he
    · exact hsl e he
    · exact hbs e he
  | none =>
    rw [saveB_of_none sz sqrtFac C eb img hb]
    intro e he
    simp only [List.mem_append, List.mem_singleton] at he
    rcases he with (he | he) | he
    · exact hsl e he
    · exact hbs e he
    · rw [he]

/-! ### Pillow thumbnail geometry -/

theorem pickMinKey_mem (a b : Nat) (k : Nat → ℚ) :
    pickMinKey a b k = a ∨ pickMinKey a b k = b := by
  unfold pickMinKey
  split
  · exact Or.inl rfl
  · exact Or.inr rfl

theorem pickMinKey_self (a : Nat) (k : Nat → ℚ) : pickMinKey a a k = a := by
  unfold pickMinKey
  split <;> rfl

theorem pick_roundAspect_bounds (num : ℚ) (k : Nat → ℚ) (lo hi : Nat)
    (h1 : (lo : ℚ) ≤ num) (h2 : num ≤ (hi : ℚ)) (hlo : 1 ≤ lo) :
    lo ≤ max (pickMinKey ⌊num⌋₊ ⌈num⌉₊ k) 1 ∧
      max (pickMinKey ⌊num⌋₊ ⌈num⌉₊ k) 1 ≤ hi := by
  have hfl : lo ≤ ⌊num⌋₊ := Nat.le_floor h1
  have hcl : ⌈num⌉₊ ≤ hi := Nat.ceil_le.mpr h2
  have hfc : ⌊num⌋₊ ≤ ⌈num⌉₊ := Nat.floor_le_ceil num
  rcases pickMinKey_mem ⌊num⌋₊ ⌈num⌉₊ k with hp | hp <;> rw [hp] <;> constructor <;> omega

theorem thumbnailNewSize_fits (img : Img) (maxW maxH : Nat)
    (h1 : img.width ≤ maxW) (h2 : img.height ≤ maxH) :
    thumbnailNewSize img maxW maxH = img := by
  rw [thumbnailNewSize, if_pos ⟨h1, h2⟩]

theorem thumbnailNewSize_branch1 (img : Img) (maxW maxH : Nat)
    (hnf : ¬ (maxW ≥ img.width ∧ maxH ≥ img.height))
    (hbr : (maxW : ℚ) / (maxH : ℚ) ≥ (img.width : ℚ) / (img.height : ℚ)) :
    thumbnailNewSize img maxW maxH =
      ⟨max (pickMinKey ⌊(maxH : ℚ) * ((img.width : ℚ) / (img.height : ℚ))⌋₊
          ⌈(maxH : ℚ) * ((img.width : ℚ) / (img.height : ℚ))⌉₊
          (fun n => |(img.width : ℚ) / (img.height : ℚ) - (n : ℚ) / (maxH : ℚ)|)) 1,
       maxH⟩ := by
  rw [thumbnailNewSize, if_neg hnf, if_pos hbr]

theorem thumbnailNewSize_branch2 (img : Img) (maxW maxH : Nat)
    (hnf : ¬ (maxW ≥ img.width ∧ maxH ≥ img.height))
    (hbr : ¬ ((maxW : ℚ) / (maxH : ℚ) ≥ (img.width : ℚ) / (img.height : ℚ))) :
    thumbnailNewSize img maxW maxH =
      ⟨maxW,
       max (pickMinKey ⌊(maxW : ℚ) / ((img.width : ℚ) / (img.height : ℚ))⌋₊
          ⌈(maxW : ℚ) / ((img.width : ℚ) / (img.height : ℚ))⌉₊
          (fun n => if n = 0 then 0
            else |(img.width : ℚ) / (img.height : ℚ) - (maxW : ℚ) / (n : ℚ)|)) 1⟩ := by
  rw [thumbnailNewSize, if_neg hnf, if_neg hbr]

theorem natFloor_mul_four_fifth (h : Nat) : ⌊(h : ℚ) * ((4 : ℚ)/5)⌋₊ = 4 * h / 5 := by
  have heq : (h : ℚ) * ((4 : ℚ)/5) = ((4 * h : ℕ) : ℚ) / ((5 : ℕ) : ℚ) := by
    push_cast
    ring
  rw [heq, Nat.floor_div_nat, Nat.floor_natCast]

theorem natFloor_div_four_fifth (w : Nat) : ⌊(w : ℚ) / ((4 : ℚ)/5)⌋₊ = 5 * w / 4 := by
  have heq : (w : ℚ) / ((4 : ℚ)/5) = ((5 * w : ℕ) : ℚ) / ((4 : ℕ) : ℚ) := by
    rw [div_div_eq_mul_div]
    push_cast
    ring
  rw [heq, Nat.floor_div_nat, Nat.floor_natCast]

theorem thumb_portrait_width_case (cw h : Nat)
    (hd1 : 5 * cw ≤ 4 * h) (hd2 : 4 * h < 5 * cw + 5) (hhge : 1351 ≤ h) :
    1079 ≤ (thumbnailNewSize ⟨cw, h⟩ 1080 1350).width ∧
    (thumbnailNewSize ⟨cw, h⟩ 1080 1350).width ≤ 1080 ∧
    (thumbnailNewSize ⟨cw, h⟩ 1080 1350).height = 1350 := by
  have hq0 : (0 : ℚ) < (h : ℚ) := by exact_mod_cast (by omega : 0 < h)
  have hc5 : ((5 * cw : ℕ) : ℚ) ≤ ((4 * h : ℕ) : ℚ) := by exact_mod_cast hd1
  have hc4 : ((4 * h : ℕ) : ℚ) < ((5 * cw : ℕ) : ℚ) + 5 := by exact_mod_cast hd2
  have hch : (1351 : ℚ) ≤ (h : ℚ) := by exact_mod_cast hhge
  push_cast at hc5 hc4
  have hnf : ¬ ((1080 : ℕ) ≥ (Img.mk cw h).width ∧ (1350 : ℕ) ≥ (Img.mk cw h).height) := by
    intro hcon
    have h2 : h ≤ 1350 := hcon.2
    omega
  have hbr : ((1080 : ℕ) : ℚ) / ((1350 : ℕ) : ℚ) ≥
      ((Img.mk cw h).width : ℚ) / ((Img.mk cw h).height : ℚ) := by
    show ((1080 : ℕ) : ℚ) / ((1350 : ℕ) : ℚ) ≥ (cw : ℚ) / (h : ℚ)
    rw [ge_iff_le, div_le_div_iff hq0 (by positivity)]
    push_cast
    linarith
  rw [thumbnailNewSize_branch1 ⟨cw, h⟩ 1080 1350 hnf hbr]
  have hnum_lo : ((1079 : ℕ) : ℚ) ≤
      ((1350 : ℕ) : ℚ) * (((Img.mk cw h).width : ℚ) / ((Img.mk cw h).height : ℚ)) := by
    show ((1079 : ℕ) : ℚ) ≤ ((1350 : ℕ) : ℚ) * ((cw : ℚ) / (h : ℚ))
    rw [← mul_div_assoc, le_div_iff hq0]
    push_cast
    linarith
  have hnum_hi : ((1350 : ℕ) : ℚ) * (((Img.mk cw h).width : ℚ) / ((Img.mk cw h).height : ℚ)) ≤
      ((1080 : ℕ) : ℚ) := by
    show ((1350 : ℕ) : ℚ) * ((cw : ℚ) / (h : ℚ)) ≤ ((1080 : ℕ) : ℚ)
    rw [← mul_div_assoc, div_le_iff hq0]
    push_cast
    linarith
  have hb := pick_roundAspect_bounds
    (((1350 : ℕ) : ℚ) * (((Img.mk cw h).width : ℚ) / ((Img.mk cw h).height : ℚ)))
    (fun n => |((Img.mk cw h).width : ℚ) / ((Img.mk cw h).height : ℚ) -
      (n : ℚ) / ((1350 : ℕ) : ℚ)|)
    1079 1080 hnum_lo hnum_hi (by norm_num)
  exact ⟨hb.1, hb.2, rfl⟩

theorem thumb_portrait_height_case (w ch : Nat)
    (hd1 : 4 * ch ≤ 5 * w) (hd2 : 5 * w < 4 * ch + 4) (hwge : 1081 ≤ w) :
    (thumbnailNewSize ⟨w, ch⟩ 1080 1350).width = 1080 ∧
    1349 ≤ (thumbnailNewSize ⟨w, ch⟩ 1080 1350).height ∧
    (thumbnailNewSize ⟨w, ch⟩ 1080 1350).height ≤ 1350 := by
  have hchge : 1351 ≤ ch := by omega
  have hq0w : (0 : ℚ) < (w : ℚ) := by exact_mod_cast (by omega : 0 < w)
  have hq0c : (0 : ℚ) < (ch : ℚ) := by exact_mod_cast (by omega : 0 < ch)
  have hA : ((5 * w : ℕ) : ℚ) ≤ ((4 * ch : ℕ) : ℚ) + 3 := by
    exact_mod_cast (by omega : 5 * w ≤ 4 * ch + 3)
  have hB : (1081 : ℚ) ≤ (w : ℚ) := by exact_mod_cast hwge
  have hC : ((4 * ch : ℕ) : ℚ) ≤ ((5 * w : ℕ) : ℚ) := by exact_mod_cast hd1
  push_cast at hA hC
  have hnf : ¬ ((1080 : ℕ) ≥ (Img.mk w ch).width ∧ (1350 : ℕ) ≥ (Img.mk w ch).height) := by
    intro hcon
    have h1 : w ≤ 1080 := hcon.1
    omega
  by_cases heq : 4 * ch = 5 * w
  · have hEq : (4 : ℚ) * (ch : ℚ) = 5 * (w : ℚ) := by exact_mod_cast heq
    have hbr : ((1080 : ℕ) : ℚ) / ((1350 : ℕ) : ℚ) ≥
        ((Img.mk w ch).width : ℚ) / ((Img.mk w ch).height : ℚ) := by
      show ((1080 : ℕ) : ℚ) / ((1350 : ℕ) : ℚ) ≥ (w : ℚ) / (ch : ℚ)
      rw [ge_iff_le, div_le_div_iff hq0c (by positivity)]
      push_cast
      linarith
    rw [thumbnailNewSize_branch1 ⟨w, ch⟩ 1080 1350 hnf hbr]
    have hnum : ((1350 : ℕ) : ℚ) * (((Img.mk w ch).width : ℚ) / ((Img.mk w ch).height : ℚ)) =
        ((1080 : ℕ) : ℚ) := by
      show ((1350 : ℕ) : ℚ) * ((w : ℚ) / (ch : ℚ)) = ((1080 : ℕ) : ℚ)
      rw [← mul_div_assoc, div_eq_iff (ne_of_gt hq0c)]
      push_cast
      linarith
    rw [hnum, Nat.floor_natCast, Nat.ceil_natCast, pickMinKey_self]
    refine ⟨?_, by norm_num, by norm_num⟩
    show max 1080 1 = 1080
    exact Nat.max_eq_left (by norm_num)
  · have hlt : 4 * ch < 5 * w := by omega
    have hLt : (4 : ℚ) * (ch : ℚ) < 5 * (w : ℚ) := by
      exact_mod_cast (show ((4 * ch : ℕ) : ℚ) < ((5 * w : ℕ) : ℚ) by exact_mod_cast hlt)
    have hbr : ¬ (((1080 : ℕ) : ℚ) / ((1350 : ℕ) : ℚ) ≥
        ((Img.mk w ch).width : ℚ) / ((Img.mk w ch).height : ℚ)) := by
      show ¬ (((1080 : ℕ) : ℚ) / ((1350 : ℕ) : ℚ) ≥ (w : ℚ) / (ch : ℚ))
      rw [ge_iff_le, div_le_div_iff hq0c (by positivity)]
      push_cast
      intro hcon
      linarith
    rw [thumbnailNewSize_branch2 ⟨w, ch⟩ 1080 1350 hnf hbr]
    have hnum_eq : ((1080 : ℕ) : ℚ) / (((Img.mk w ch).width : ℚ) / ((Img.mk w ch).height : ℚ)) =
        ((1080 : ℕ) : ℚ) * (ch : ℚ) / (w : ℚ) := by
      show ((1080 : ℕ) : ℚ) / ((w : ℚ) / (ch : ℚ)) = ((1080 : ℕ) : ℚ) * (ch : ℚ) / (w : ℚ)
      rw [div_div_eq_mul_div]
    have hnum_lo : ((1349 : ℕ) : ℚ) ≤
        ((1080 : ℕ) : ℚ) / (((Img.mk w ch).width : ℚ) / ((Img.mk w ch).height : ℚ)) := by
      rw [hnum_eq, le_div_iff hq0w]
      push_cast
      linarith
    have hnum_hi : ((1080 : ℕ) : ℚ) /
        (((Img.mk w ch).width : ℚ) / ((Img.mk w ch).height : ℚ)) ≤ ((1350 : ℕ) : ℚ) := by
      rw [hnum_eq, div_le_iff hq0w]
      push_cast
      linarith
    have hb := pick_roundAspect_bounds
      (((1080 : ℕ) : ℚ) / (((Img.mk w ch).width : ℚ) / ((Img.mk w ch).height : ℚ)))
      (fun n => if n = 0 then 0
        else |((Img.mk w ch).width : ℚ) / ((Img.mk w ch).height : ℚ) -
          ((1080 : ℕ) : ℚ) / (n : ℚ)|)
      1349 1350 hnum_lo hnum_hi (by norm_num)
    exact ⟨rfl, hb.1, hb.2⟩

/-- C6: for every portrait image, the pipeline center-crops to 4:5 with
integer-truncated dimensions and floor-halved margins, then only
downscales to fit within 1080x1350; the output respects the bounds, is
never larger than the cropped buffer in either dimension, and its
width:height ratio is 4:5 within one rounding unit
(`|5w - 4h| ≤ 5`). -/
theorem portrait_processing_spec (img : Img) (hw : 0 < img.width) (hh : 0 < img.height)
    (hp : getOrientation img = Orientation.portrait) :
    processImageGeometry img = resizeToFit (centerCropToRatio img ((4 : ℚ)/5)) PORTRAIT_SIZE
    ∧ ((4 : ℚ)/5 < (img.width : ℚ) / (img.height : ℚ) →
        centerCropBox img ((4 : ℚ)/5) =
          ((img.width - 4 * img.height / 5) / 2, 0,
           (img.width - 4 * img.height / 5) / 2 + 4 * img.height / 5, img.height))
    ∧ ((img.width : ℚ) / (img.height : ℚ) ≤ (4 : ℚ)/5 →
        centerCropBox img ((4 : ℚ)/5) =
          (0, (img.height - 5 * img.width / 4) / 2, img.width,
           (img.height - 5 * img.width / 4) / 2 + 5 * img.width / 4))
    ∧ (processImageGeometry img).width ≤ 1080
    ∧ (processImageGeometry img).height ≤ 1350
    ∧ (processImageGeometry img).width ≤ (centerCropToRatio img ((4 : ℚ)/5)).width
    ∧ (processImageGeometry img).height ≤ (centerCropToRatio img ((4 : ℚ)/5)).height
    ∧ (5 * ((processImageGeometry img).width : ℤ) -
        4 * ((processImageGeometry img).height : ℤ)).natAbs ≤ 5 := by
  have hout0 : processImageGeometry img =
      thumbnailNewSize (centerCropToRatio img ((4 : ℚ)/5)) 1080 1350 := by
    simp only [processImageGeometry, hp, resizeToFit, PORTRAIT_SIZE]
  have hc1 : processImageGeometry img =
      resizeToFit (centerCropToRatio img ((4 : ℚ)/5)) PORTRAIT_SIZE := by
    simp only [processImageGeometry, hp]
  by_cases hcr : (4 : ℚ)/5 < (img.width : ℚ) / (img.height : ℚ)
  · have hbox : centerCropBox img ((4 : ℚ)/5) =
        ((img.width - 4 * img.height / 5) / 2, 0,
         (img.width - 4 * img.height / 5) / 2 + 4 * img.height / 5, img.height) := by
      simp only [centerCropBox]
      rw [if_pos hcr, natFloor_mul_four_fifth]
    have hcc : centerCropToRatio img ((4 : ℚ)/5) = ⟨4 * img.height / 5, img.height⟩ := by
      simp only [centerCropToRatio, hbox]
      congr 1 <;> omega
    have hdm := Nat.div_add_mod (4 * img.height) 5
    have hmlt : (4 * img.height) % 5 < 5 := Nat.mod_lt _ (by norm_num)
    by_cases hfits : img.height ≤ 1350
    · have hcw : 4 * img.height / 5 ≤ 1080 := by omega
      have hout : processImageGeometry img = ⟨4 * img.height / 5, img.height⟩ := by
        rw [hout0, hcc]
        exact thumbnailNewSize_fits _ 1080 1350 hcw hfits
      refine ⟨hc1, fun _ => hbox, fun hle => absurd hcr (not_lt.mpr hle), ?_, ?_, ?_, ?_, ?_⟩
      · rw [hout]; exact hcw
      · rw [hout]; exact hfits
      · rw [hout, hcc]
      · rw [hout, hcc]
      · rw [hout]
        show (5 * ((4 * img.height / 5 : ℕ) : ℤ) - 4 * ((img.height : ℕ) : ℤ)).natAbs ≤ 5
        omega
    · have hh1351 : 1351 ≤ img.height := by omega
      obtain ⟨hx1, hx2, hx3⟩ := thumb_portrait_width_case (4 * img.height / 5) img.height
        (by omega) (by omega) hh1351
      have hout : processImageGeometry img =
          thumbnailNewSize ⟨4 * img.height / 5, img.height⟩ 1080 1350 := by
        rw [hout0, hcc]
      refine ⟨hc1, fun _ => hbox, fun hle => absurd hcr (not_lt.mpr hle), ?_, ?_, ?_, ?_, ?_⟩
      · rw [hout]; exact hx2
      · rw [hout]; omega
      · rw [hout, hcc]
        show (thumbnailNewSize ⟨4 * img.height / 5, img.height⟩ 1080 1350).width ≤
          4 * img.height / 5
        omega
      · rw [hout, hcc]
        show (thumbnailNewSize ⟨4 * img.height / 5, img.height⟩ 1080 1350).height ≤ img.height
        omega
      · rw [hout]
        omega
  · push_neg at hcr
    have hbox : centerCropBox img ((4 : ℚ)/5) =
        (0, (img.height - 5 * img.width / 4) / 2, img.width,
         (img.height - 5 * img.width / 4) / 2 + 5 * img.width / 4) := by
      simp only [centerCropBox]
      rw [if_neg (not_lt.mpr hcr), natFloor_div_four_fifth]
    have hcc : centerCropToRatio img ((4 : ℚ)/5) = ⟨img.width, 5 * img.width / 4⟩ := by
      simp only [centerCropToRatio, hbox]
      congr 1 <;> omega
    have hdm := Nat.div_add_mod (5 * img.width) 4
    have hmlt : (5 * img.width) % 4 < 4 := Nat.mod_lt _ (by norm_num)
    by_cases hfits : img.width ≤ 1080
    · have hch : 5 * img.width / 4 ≤ 1350 := by omega
      have hout : processImageGeometry img = ⟨img.width, 5 * img.width / 4⟩ := by
        rw [hout0, hcc]
        exact thumbnailNewSize_fits _ 1080 1350 hfits hch
      refine ⟨hc1, fun hlt => absurd hlt (not_lt.mpr hcr), fun _ => hbox, ?_, ?_, ?_, ?_, ?_⟩
      · rw [hout]; exact hfits
      · rw [hout]; exact hch
      · rw [hout, hcc]
      · rw [hout, hcc]
      · rw [hout]
        show (5 * ((img.width : ℕ) : ℤ) - 4 * ((5 * img.width / 4 : ℕ) : ℤ)).natAbs ≤ 5
        omega
    · have hw1081 : 1081 ≤ img.width := by omega
      obtain ⟨hx1, hx2, hx3⟩ := thumb_portrait_height_case img.width (5 * img.width / 4)
        (by omega) (by omega) hw1081
      have hchge : 1351 ≤ 5 * img.width / 4 := by omega
      have hout : processImageGeometry img =
          thumbnailNewSize ⟨img.width, 5 * img.width / 4⟩ 1080 1350 := by
        rw [hout0, hcc]
      refine ⟨hc1, fun hlt => absurd hlt (not_lt.mpr hcr), fun _ => hbox, ?_, ?_, ?_, ?_, ?_⟩
      · rw [hout]; omega
      · rw [hout]; exact hx3
      · rw [hout, hcc]
        show (thumbnailNewSize ⟨img.width, 5 * img.width / 4⟩ 1080 1350).width ≤ img.width
        omega
      · rw [hout, hcc]
        show (thumbnailNewSize ⟨img.width, 5 * img.width / 4⟩ 1080 1350).height ≤
          5 * img.width / 4
        omega
      · rw [hout]
        omega

/-- Witness for C6 at a 3000x4000 portrait image. -/
theorem portrait_processing_spec_witness :
    0 < (Img.mk 3000 4000).width ∧ 0 < (Img.mk 3000 4000).height ∧
    getOrientation ⟨3000, 4000⟩ = Orientation.portrait ∧
    (processImageGeometry ⟨3000, 4000⟩ =
        resizeToFit (centerCropToRatio ⟨3000, 4000⟩ ((4 : ℚ)/5)) PORTRAIT_SIZE
    ∧ ((4 : ℚ)/5 < ((Img.mk 3000 4000).width : ℚ) / ((Img.mk 3000 4000).height : ℚ) →
        centerCropBox ⟨3000, 4000⟩ ((4 : ℚ)/5) =
          (((Img.mk 3000 4000).width - 4 * (Img.mk 3000 4000).height / 5) / 2, 0,
           ((Img.mk 3000 4000).width - 4 * (Img.mk 3000 4000).height / 5) / 2 +
             4 * (Img.mk 3000 4000).height / 5, (Img.mk 3000 4000).height))
    ∧ (((Img.mk 3000 4000).width : ℚ) / ((Img.mk 3000 4000).height : ℚ) ≤ (4 : ℚ)/5 →
        centerCropBox ⟨3000, 4000⟩ ((4 : ℚ)/5) =
          (0, ((Img.mk 3000 4000).height - 5 * (Img.mk 3000 4000).width / 4) / 2,
           (Img.mk 3000 4000).width,
           ((Img.mk 3000 4000).height - 5 * (Img.mk 3000 4000).width / 4) / 2 +
             5 * (Img.mk 3000 4000).width / 4))
    ∧ (processImageGeometry ⟨3000, 4000⟩).width ≤ 1080
    ∧ (processImageGeometry ⟨3000, 4000⟩).height ≤ 1350
    ∧ (processImageGeometry ⟨3000, 4000⟩).width ≤
        (centerCropToRatio ⟨3000, 4000⟩ ((4 : ℚ)/5)).width
    ∧ (processImageGeometry ⟨3000, 4000⟩).height ≤
        (centerCropToRatio ⟨3000, 4000⟩ ((4 : ℚ)/5)).height
    ∧ (5 * ((processImageGeometry ⟨3000, 4000⟩).width : ℤ) -
        4 * ((processImageGeometry ⟨3000, 4000⟩).height : ℤ)).natAbs ≤ 5) := by
  have hport : getOrientation ⟨3000, 4000⟩ = Orientation.portrait := by
    simp only [getOrientation]
    norm_num
  exact ⟨by norm_num, by norm_num, hport,
    portrait_processing_spec ⟨3000, 4000⟩ (by norm_num) (by norm_num) hport⟩

/-- C2: Mode B: when at least one quality in `[60, 100]` fits the ceiling
at the post-phase-1 resolution and encoded size is monotone in quality
there, the encoding written is exactly the best buffer at that
resolution, its size fits the ceiling, and the returned quality is the
largest quality in `[60, 100]` whose encoding fits. -/
theorem save_with_size_and_scale_optimization_fits (sz : SizeFn) (sqrtFac : Nat → Nat → ℚ)
    (C : Nat) (eb : Option Bytes) (img : Img)
    (mono : ∀ q1 q2 : Int, 60 ≤ q1 → q1 ≤ q2 → q2 ≤ 100 →
      sz (scaleLoop sz sqrtFac C eb 5 img).1 q1 (exifKw eb) ≤
        sz (scaleLoop sz sqrtFac C eb 5 img).1 q2 (exifKw eb))
    (hex : ∃ q : Int, 60 ≤ q ∧ q ≤ 100 ∧
      sz (scaleLoop sz sqrtFac C eb 5 img).1 q (exifKw eb) ≤ C) :
    sz (saveWithSizeAndScaleOptimization sz sqrtFac C eb img).written.img
      (saveWithSizeAndScaleOptimization sz sqrtFac C eb img).written.quality
      (saveWithSizeAndScaleOptimization sz sqrtFac C eb img).written.exif ≤ C
    ∧ (saveWithSizeAndScaleOptimization sz sqrtFac C eb img).written =
      ⟨(scaleLoop sz sqrtFac C eb 5 img).1,
        (saveWithSizeAndScaleOptimization sz sqrtFac C eb img).quality, exifKw eb⟩
    ∧ (saveWithSizeAndScaleOptimization sz sqrtFac C eb img).finalImg =
      (scaleLoop sz sqrtFac C eb 5 img).1
    ∧ 60 ≤ (saveWithSizeAndScaleOptimization sz sqrtFac C eb img).quality
    ∧ (saveWithSizeAndScaleOptimization sz sqrtFac C eb img).quality ≤ 100
    ∧ (∀ q : Int, 60 ≤ q → q ≤ 100 →
        sz (scaleLoop sz sqrtFac C eb 5 img).1 q (exifKw eb) ≤ C →
        q ≤ (saveWithSizeAndScaleOptimization sz sqrtFac C eb img).quality) := by
  have hb := qualityBinarySearch_found sz C eb (scaleLoop sz sqrtFac C eb 5 img).1 mono
    41 60 100 60 none (by norm_num) (by norm_num) (by norm_num)
    (fun q h1 h2 => absurd h2 (not_le.mpr h1))
    (fun q h1 h2 _ => absurd h1 (not_le.mpr h2))
    (fun e he => Option.noConfusion he) hex
  obtain ⟨hb1, hb2, hb3, hb4, hb5⟩ := hb
  rw [saveB_of_some sz sqrtFac C eb img _ hb1]
  exact ⟨hb2, rfl, rfl, hb3, hb4, hb5⟩

/-- Witness for C2 at a constant-size encoder whose encodings always fit
the ceiling. -/
theorem save_with_size_and_scale_optimization_fits_witness :
    (fun (_ : Img) (_ : Int) (_ : Option Bytes) => (500 : Nat))
      (saveWithSizeAndScaleOptimization (fun _ _ _ => 500) (fun _ _ => (1 : ℚ)/2)
        1000 none ⟨30, 40⟩).written.img
      (saveWithSizeAndScaleOptimization (fun _ _ _ => 500) (fun _ _ => (1 : ℚ)/2)
        1000 none ⟨30, 40⟩).written.quality
      (saveWithSizeAndScaleOptimization (fun _ _ _ => 500) (fun _ _ => (1 : ℚ)/2)
        1000 none ⟨30, 40⟩).written.exif ≤ 1000
    ∧ (saveWithSizeAndScaleOptimization (fun _ _ _ => 500) (fun _ _ => (1 : ℚ)/2)
        1000 none ⟨30, 40⟩).written =
      ⟨(scaleLoop (fun _ _ _ => 500) (fun _ _ => (1 : ℚ)/2) 1000 none 5 ⟨30, 40⟩).1,
        (saveWithSizeAndScaleOptimization (fun _ _ _ => 500) (fun _ _ => (1 : ℚ)/2)
          1000 none ⟨30, 40⟩).quality, exifKw none⟩
    ∧ (saveWithSizeAndScaleOptimization (fun _ _ _ => 500) (fun _ _ => (1 : ℚ)/2)
        1000 none ⟨30, 40⟩).finalImg =
      (scaleLoop (fun _ _ _ => 500) (fun _ _ => (1 : ℚ)/2) 1000 none 5 ⟨30, 40⟩).1
    ∧ 60 ≤ (saveWithSizeAndScaleOptimization (fun _ _ _ => 500) (fun _ _ => (1 : ℚ)/2)
        1000 none ⟨30, 40⟩).quality
    ∧ (saveWithSizeAndScaleOptimization (fun _ _ _ => 500) (fun _ _ => (1 : ℚ)/2)
        1000 none ⟨30, 40⟩).quality ≤ 100
    ∧ (∀ q : Int, 60 ≤ q → q ≤ 100 →
        (fun (_ : Img) (_ : Int) (_ : Option Bytes) => (500 : Nat))
          (scaleLoop (fun _ _ _ => 500) (fun _ _ => (1 : ℚ)/2) 1000 none 5 ⟨30, 40⟩).1 q
          (exifKw none) ≤ 1000 →
        q ≤ (saveWithSizeAndScaleOptimization (fun _ _ _ => 500) (fun _ _ => (1 : ℚ)/2)
          1000 none ⟨30, 40⟩).quality) :=
  save_with_size_and_scale_optimization_fits (fun _ _ _ => 500) (fun _ _ => (1 : ℚ)/2)
    1000 none ⟨30, 40⟩
    (fun _ _ _ _ _ => le_refl 500)
    ⟨60, by norm_num, by norm_num, by norm_num⟩

/-- C3: Mode B fallback: when no quality in `[60, 100]` fits the ceiling
at the post-phase-1 resolution, the algorithm performs exactly one
further 0.8-downscale of both dimensions, appends a single encode at
quality 80 to the trace, writes that encoding regardless of its size,
and returns quality 80 (the function is total — no error reaches the
caller). -/
theorem save_with_size_and_scale_optimization_fallback (sz : SizeFn)
    (sqrtFac : Nat → Nat → ℚ) (C : Nat) (eb : Option Bytes) (img : Img)
    (hno : ∀ q : Int, 60 ≤ q → q ≤ 100 →
      ¬ sz (scaleLoop sz sqrtFac C eb 5 img).1 q (exifKw eb) ≤ C) :
    saveWithSizeAndScaleOptimization sz sqrtFac C eb img =
      ⟨80,
       ⟨⌊((scaleLoop sz sqrtFac C eb 5 img).1.width : ℚ) * ((8 : ℚ)/10)⌋₊,
        ⌊((scaleLoop sz sqrtFac C eb 5 img).1.height : ℚ) * ((8 : ℚ)/10)⌋₊⟩,
       ⟨⟨⌊((scaleLoop sz sqrtFac C eb 5 img).1.width : ℚ) * ((8 : ℚ)/10)⌋₊,
         ⌊((scaleLoop sz sqrtFac C eb 5 img).1.height : ℚ) * ((8 : ℚ)/10)⌋₊⟩, 80, exifKw eb⟩,
       (scaleLoop sz sqrtFac C eb 5 img).2 ++
         (qualityBinarySearch sz C eb (scaleLoop sz sqrtFac C eb 5 img).1 60 100 60 none).2.2 ++
         [⟨⟨⌊((scaleLoop sz sqrtFac C eb 5 img).1.width : ℚ) * ((8 : ℚ)/10)⌋₊,
            ⌊((scaleLoop sz sqrtFac C eb 5 img).1.height : ℚ) * ((8 : ℚ)/10)⌋₊⟩,
           80, exifKw eb⟩]⟩ := by
  have hb := (qualityBinarySearch_nofit sz C eb (scaleLoop sz sqrtFac C eb 5 img).1
    41 60 100 60 none (by norm_num) (by norm_num) (by norm_num) hno).2
  exact saveB_of_none sz sqrtFac C eb img hb

/-- Witness for C3 at a constant-size encoder that never fits. -/
theorem save_with_size_and_scale_optimization_fallback_witness :
    saveWithSizeAndScaleOptimization (fun _ _ _ => 5000) (fun _ _ => (1 : ℚ)/2)
        1000 none ⟨100, 100⟩ =
      ⟨80,
       ⟨⌊(((scaleLoop (fun _ _ _ => 5000) (fun _ _ => (1 : ℚ)/2) 1000 none
             5 ⟨100, 100⟩).1.width : ℚ)) * ((8 : ℚ)/10)⌋₊,
        ⌊(((scaleLoop (fun _ _ _ => 5000) (fun _ _ => (1 : ℚ)/2) 1000 none
             5 ⟨100, 100⟩).1.height : ℚ)) * ((8 : ℚ)/10)⌋₊⟩,
       ⟨⟨⌊(((scaleLoop (fun _ _ _ => 5000) (fun _ _ => (1 : ℚ)/2) 1000 none
             5 ⟨100, 100⟩).1.width : ℚ)) * ((8 : ℚ)/10)⌋₊,
         ⌊(((scaleLoop (fun _ _ _ => 5000) (fun _ _ => (1 : ℚ)/2) 1000 none
             5 ⟨100, 100⟩).1.height : ℚ)) * ((8 : ℚ)/10)⌋₊⟩, 80, exifKw none⟩,
       (scaleLoop (fun _ _ _ => 5000) (fun _ _ => (1 : ℚ)/2) 1000 none 5 ⟨100, 100⟩).2 ++
         (qualityBinarySearch (fun _ _ _ => 5000) 1000 none
           (scaleLoop (fun _ _ _ => 5000) (fun _ _ => (1 : ℚ)/2) 1000 none
             5 ⟨100, 100⟩).1 60 100 60 none).2.2 ++
         [⟨⟨⌊(((scaleLoop (fun _ _ _ => 5000) (fun _ _ => (1 : ℚ)/2) 1000 none
               5 ⟨100, 100⟩).1.width : ℚ)) * ((8 : ℚ)/10)⌋₊,
            ⌊(((scaleLoop (fun _ _ _ => 5000) (fun _ _ => (1 : ℚ)/2) 1000 none
               5 ⟨100, 100⟩).1.height : ℚ)) * ((8 : ℚ)/10)⌋₊⟩,
           80, exifKw none⟩]⟩ :=
  save_with_size_and_scale_optimization_fallback (fun _ _ _ => 5000) (fun _ _ => (1 : ℚ)/2)
    1000 none ⟨100, 100⟩ (fun _ _ _ h => absurd h (by norm_num))

/-- C4 (amended): Mode B quality is monotone in the ceiling provided the
quality-95 encoding of the input already fits the smaller ceiling at the
original resolution (so phase 1 performs no scaling under either
ceiling) and encoded size is monotone in quality; without these
conditions monotonicity fails (see the counterexample). -/
theorem save_with_size_and_scale_optimization_ceiling_monotone (sz : SizeFn)
    (sqrtFac : Nat → Nat → ℚ) (eb : Option Bytes) (img : Img) (Cs Cl : Nat)
    (hC : Cs ≤ Cl)
    (h95 : sz img 95 (exifKw eb) ≤ Cs)
    (mono : ∀ q1 q2 : Int, 60 ≤ q1 → q1 ≤ q2 → q2 ≤ 100 →
      sz img q1 (exifKw eb) ≤ sz img q2 (exifKw eb)) :
    (saveWithSizeAndScaleOptimization sz sqrtFac Cs eb img).quality ≤
      (saveWithSizeAndScaleOptimization sz sqrtFac Cl eb img).quality := by
  have hsls : scaleLoop sz sqrtFac Cs eb 5 img = (img, [⟨img, 95, exifKw eb⟩]) :=
    scaleLoop_of_fits sz sqrtFac Cs eb 4 img h95
  have hsll : scaleLoop sz sqrtFac Cl eb 5 img = (img, [⟨img, 95, exifKw eb⟩]) :=
    scaleLoop_of_fits sz sqrtFac Cl eb 4 img (le_trans h95 hC)
  have hbS := qualityBinarySearch_found sz Cs eb img mono
    41 60 100 60 none (by norm_num) (by norm_num) (by norm_num)
    (fun q h1 h2 => absurd h2 (not_le.mpr h1))
    (fun q h1 h2 _ => absurd h1 (not_le.mpr h2))
    (fun e he => Option.noConfusion he)
    ⟨95, by norm_num, by norm_num, h95⟩
  have hbL := qualityBinarySearch_found sz Cl eb img mono
    41 60 100 60 none (by norm_num) (by norm_num) (by norm_num)
    (fun q h1 h2 => absurd h2 (not_le.mpr h1))
    (fun q h1 h2 _ => absurd h1 (not_le.mpr h2))
    (fun e he => Option.noConfusion he)
    ⟨95, by norm_num, by norm_num, le_trans h95 hC⟩
  have hS1 : (qualityBinarySearch sz Cs eb (scaleLoop sz sqrtFac Cs eb 5 img).1
      60 100 60 none).2.1 =
      some ⟨img, (qualityBinarySearch sz Cs eb img 60 100 60 none).1, exifKw eb⟩ := by
    simp only [hsls]
    exact hbS.1
  have hL1 : (qualityBinarySearch sz Cl eb (scaleLoop sz sqrtFac Cl eb 5 img).1
      60 100 60 none).2.1 =
      some ⟨img, (qualityBinarySearch sz Cl eb img 60 100 60 none).1, exifKw eb⟩ := by
    simp only [hsll]
    exact hbL.1
  rw [saveB_of_some sz sqrtFac Cs eb img _ hS1, saveB_of_some sz sqrtFac Cl eb img _ hL1]
  simp only [hsls, hsll]
  exact hbL.2.2.2.2 (qualityBinarySearch sz Cs eb img 60 100 60 none).1
    hbS.2.2.1 hbS.2.2.2.1 (le_trans hbS.2.1 hC)

/-- Witness for the amended C4 at a constant-size encoder. -/
theorem save_with_size_and_scale_optimization_ceiling_monotone_witness :
    (400 : Nat) ≤ 500 ∧
    (fun (_ : Img) (_ : Int) (_ : Option Bytes) => (300 : Nat)) ⟨20, 20⟩ 95 (exifKw none) ≤ 400 ∧
    (saveWithSizeAndScaleOptimization (fun _ _ _ => 300) (fun _ _ => (1 : ℚ)/2)
        400 none ⟨20, 20⟩).quality ≤
      (saveWithSizeAndScaleOptimization (fun _ _ _ => 300) (fun _ _ => (1 : ℚ)/2)
        500 none ⟨20, 20⟩).quality :=
  ⟨by norm_num, by norm_num,
    save_with_size_and_scale_optimization_ceiling_monotone (fun _ _ _ => 300)
      (fun _ _ => (1 : ℚ)/2) none ⟨20, 20⟩ 400 500 (by norm_num) (by norm_num)
      (fun _ _ _ _ _ => le_refl 300)⟩

theorem scaleLoop_pinned_100 (C : Nat) (hC : ¬ (10000 ≤ C)) :
    ∀ n : Nat, (scaleLoop (fun _ q _ => if q = 69 then 1500 else 10000)
      (fun _ _ => (1 : ℚ)/2) C none n ⟨100, 100⟩).1 = ⟨100, 100⟩ := by
  intro n
  induction n with
  | zero => rfl
  | succ n ih =>
    have h1 : ¬ ((if (95 : Int) = 69 then (1500 : Nat) else 10000) ≤ C) := by
      rw [if_neg (by decide : ¬ (95 : Int) = 69)]
      exact hC
    have h2 : ¬ ((99 : ℚ)/100 ≤ (1 : ℚ)/2) := by norm_num
    have hfl : ⌊((100 : ℕ) : ℚ) * ((1 : ℚ)/2)⌋₊ = 50 :=
      natFloor_rat_eq _ 50 (by norm_num) (by norm_num)
    simp only [scaleLoop, exifKw]
    rw [if_neg h1, if_neg h2]
    simp only [hfl]
    rw [show max 100 50 = 100 from Nat.max_eq_left (by norm_num)]
    exact ih

/-- C4 counterexample: a non-monotone (in quality) encoder on a 100x100
buffer whose phase-1 dimensions are pinned at 100x100: with ceiling 2000
the binary search finds quality 69, while with the smaller ceiling 1000
nothing fits and the fallback returns the HIGHER quality 80 — so a
larger ceiling yields a strictly lower returned quality. -/
theorem save_with_size_and_scale_optimization_monotone_counterexample :
    (1000 : Nat) ≤ 2000 ∧
    (saveWithSizeAndScaleOptimization (fun _ q _ => if q = 69 then 1500 else 10000)
        (fun _ _ => (1 : ℚ)/2) 2000 none ⟨100, 100⟩).quality <
      (saveWithSizeAndScaleOptimization (fun _ q _ => if q = 69 then 1500 else 10000)
        (fun _ _ => (1 : ℚ)/2) 1000 none ⟨100, 100⟩).quality := by
  refine ⟨by norm_num, ?_⟩
  have hsl2 : (scaleLoop (fun _ q _ => if q = 69 then 1500 else 10000)
      (fun _ _ => (1 : ℚ)/2) 2000 none 5 ⟨100, 100⟩).1 = ⟨100, 100⟩ :=
    scaleLoop_pinned_100 2000 (by norm_num) 5
  have hsl1 : (scaleLoop (fun _ q _ => if q = 69 then 1500 else 10000)
      (fun _ _ => (1 : ℚ)/2) 1000 none 5 ⟨100, 100⟩).1 = ⟨100, 100⟩ :=
    scaleLoop_pinned_100 1000 (by norm_num) 5
  have hbs2 : (qualityBinarySearch (fun _ q _ => if q = 69 then 1500 else 10000) 2000 none
      ⟨100, 100⟩ 60 100 60 none).2.1 = some ⟨⟨100, 100⟩, 69, none⟩ := by
    rw [qualityBinarySearch_eq_fuel _ _ _ _ 41 60 100 60 none (by norm_num)]
    decide
  have hbs2q : (qualityBinarySearch (fun _ q _ => if q = 69 then 1500 else 10000) 2000 none
      ⟨100, 100⟩ 60 100 60 none).1 = 69 := by
    rw [qualityBinarySearch_eq_fuel _ _ _ _ 41 60 100 60 none (by norm_num)]
    decide
  have hbs1 : (qualityBinarySearch (fun _ q _ => if q = 69 then 1500 else 10000) 1000 none
      ⟨100, 100⟩ 60 100 60 none).2.1 = none := by
    rw [qualityBinarySearch_eq_fuel _ _ _ _ 41 60 100 60 none (by norm_num)]
    decide
  have h2000 : (saveWithSizeAndScaleOptimization (fun _ q _ => if q = 69 then 1500 else 10000)
      (fun _ _ => (1 : ℚ)/2) 2000 none ⟨100, 100⟩).quality = 69 := by
    have h' : (qualityBinarySearch (fun _ q _ => if q = 69 then 1500 else 10000) 2000 none
        (scaleLoop (fun _ q _ => if q = 69 then 1500 else 10000)
          (fun _ _ => (1 : ℚ)/2) 2000 none 5 ⟨100, 100⟩).1 60 100 60 none).2.1 =
        some ⟨⟨100, 100⟩, 69, none⟩ := by
      rw [hsl2]
      exact hbs2
    rw [saveB_of_some _ _ _ _ _ _ h']
    show (qualityBinarySearch _ 2000 none
      (scaleLoop _ (fun _ _ => (1 : ℚ)/2) 2000 none 5 ⟨100, 100⟩).1 60 100 60 none).1 = 69
    rw [hsl2]
    exact hbs2q
  have h1000 : (saveWithSizeAndScaleOptimization (fun _ q _ => if q = 69 then 1500 else 10000)
      (fun _ _ => (1 : ℚ)/2) 1000 none ⟨100, 100⟩).quality = 80 := by
    have h' : (qualityBinarySearch (fun _ q _ => if q = 69 then 1500 else 10000) 1000 none
        (scaleLoop (fun _ q _ => if q = 69 then 1500 else 10000)
          (fun _ _ => (1 : ℚ)/2) 1000 none 5 ⟨100, 100⟩).1 60 100 60 none).2.1 = none := by
      rw [hsl1]
      exact hbs1
    rw [saveB_of_none _ _ _ _ _ h']
  rw [h2000, h1000]
  norm_num

/-- C9: with a non-empty metadata blob supplied, every encode attempt of
Mode A (the quality loop) and of Mode B (the scaling loop, the quality
binary search, and the fallback encode) carries exactly that blob as its
`exif` argument, so every measured size includes the metadata bytes. -/
theorem metadata_attached_to_every_encode (sz : SizeFn) (img : Img) (blob : Bytes)
    (q0 : Int) (sqrtFac : Nat → Nat → ℚ) (C : Nat) (hb : blob ≠ []) :
    (∀ e ∈ (saveWithSizeOptimization sz img (some blob) q0).2, e.exif = some blob)
    ∧ (∀ e ∈ (saveWithSizeAndScaleOptimization sz sqrtFac C (some blob) img).trace,
        e.exif = some blob) := by
  have hkw : exifKw (some blob) = some blob := by simp [exifKw, hb]
  constructor
  · intro e he
    rw [← hkw]
    exact saveQualityLoop_exif sz MAX_FILE_SIZE_BYTES img (some blob)
      (q0 + 1).toNat q0 none le_rfl e he
  · intro e he
    rw [← hkw]
    exact saveWithSizeAndScaleOptimization_exif sz sqrtFac C (some blob) img e he

/-- Witness for C9 with the one-byte blob `[1]`. -/
theorem metadata_attached_to_every_encode_witness :
    ([1] : Bytes) ≠ [] ∧
    ((∀ e ∈ (saveWithSizeOptimization (fun _ _ _ => 7) ⟨10, 10⟩ (some [1]) 80).2,
        e.exif = some [1])
    ∧ (∀ e ∈ (saveWithSizeAndScaleOptimization (fun _ _ _ => 7) (fun _ _ => (1 : ℚ)/2)
        100 (some [1]) ⟨10, 10⟩).trace, e.exif = some [1])) :=
  ⟨by decide,
    metadata_attached_to_every_encode (fun _ _ _ => 7) ⟨10, 10⟩ [1] 80
      (fun _ _ => (1 : ℚ)/2) 100 (by decide)⟩

/-- Witness for C8 at a tag tree containing only non-allow-listed tags
(camera make in the 0th IFD, exposure time in the Exif IFD, no GPS
block): the filtered structure is present but empty. -/
theorem preserve_gps_datetime_allowlist_witness :
    preserveGpsDatetime ⟨some [(271, 5)], some [(33434, 7)], none, none, none⟩ = ⟨[], [], []⟩ :=
  (preserve_gps_datetime_allowlist ⟨some [(271, 5)], some [(33434, 7)], none, none, none⟩).2.2.2
    (fun z hz => by cases hz; rfl)
    (fun x hx => by cases hx; exact ⟨rfl, rfl⟩)
    (fun g hg => by cases hg)

end PrepForInsta
